import Mathlib

/-! # PNANA remote file access over SSH: connection pool and remote operation executor

A shallow embedding of the Go sources under `go/ssh` (`pool.go`, `auth.go`,
`utils.go`, `operations.go`, `client.go`) and the properties of the design
document that can be settled on it.

Conventions of the embedding

* A Go `string` is a Lean `String`, and so is a `[]byte` holding file content (the
  conversions between the two are the identity); `fmt.Sprintf` with `%s` and `%d`
  verbs is string concatenation, `%d` printing a decimal numeral with a leading `-`
  for a negative number.
* A Go map is the list of its entries, looked up by key; the maps built by the code
  have distinct keys (`runCalls_newPool_keys`).
* Calls on the pool are taken one at a time, as the pool lock serialises them; the
  locks themselves are not part of the embedding.
* A `*ssh.Client` is an `Option Client`, `none` being the nil pointer; a client
  handle is a natural number naming the transport.
* `time.Time` is an integer count of nanoseconds, `time.Duration` a 64-bit
  integer count of nanoseconds; `Time.Sub` saturates as the Go library does.
* Go `int` is 64 bits wide (the targets of this program); `refCount++` and
  `refCount--` wrap as machine arithmetic does.
* Everything the environment decides (liveness probe, key file, dial, clock,
  session and command outcomes, local file access) is an explicit input.
-/

namespace PNANA

deriving instance DecidableEq for Except

/-! ## Strings and formatting -/

/-- The verb `%d` of `fmt.Sprintf` applied to an integer. -/
def sprintfD (n : Int) : String :=
  match n with
  | Int.ofNat m => Nat.repr m
  | Int.negSucc m => "-" ++ Nat.repr (m + 1)

/-- `connectionKey` of `pool.go`: `fmt.Sprintf("%s:%d:%s", host, port, user)`. -/
def connectionKey (host : String) (port : Int) (user : String) : String :=
  host ++ ":" ++ sprintfD port ++ ":" ++ user


/-- The value of a decimal digit character. -/
def digitVal (c : Char) : Nat := c.toNat - 48

/-- The character is neither the separator `:` of a connection key, nor a minus sign, nor a
newline. -/
def notSeparator (c : Char) : Prop := c ≠ ':' ∧ c ≠ '-' ∧ c ≠ '\n'

/-! ## Machine integers and time -/

/-- A Go `int` result, reduced to the 64-bit two's complement range. -/
def wrapInt (x : Int) : Int :=
  (x + 9223372036854775808) % 18446744073709551616 - 9223372036854775808

/-- The largest `time.Duration`, in nanoseconds. -/
def maxDuration : Int := 9223372036854775807

/-- The smallest `time.Duration`, in nanoseconds. -/
def minDuration : Int := -9223372036854775808

/-- `Time.Sub` of the Go library: the difference `t - u` as a `Duration`, replaced by the
largest or smallest duration when it does not fit. -/
def timeSub (t u : Int) : Int :=
  if maxDuration < t - u then maxDuration
  else if t - u < minDuration then minDuration
  else t - u

/-- `time.Minute`, in nanoseconds. -/
def minute : Int := 60000000000

/-! ## Authentication (`auth.go`) -/

/-- The library calls `loadPrivateKey` and `buildAuthMethods` rely on, as functions of their
arguments: reading a file, decoding one PEM block (`none` is a nil block), parsing the block
as PKCS#1, parsing it as PKCS#8 (`some k` is an RSA key, `none` a key of another algorithm),
and deriving a signer from a key. Keys and signers are named by numbers. -/
structure KeyEnv where
  readFile : String → Except String String
  pemDecode : String → Option String
  parsePKCS1 : String → Except String Nat
  parsePKCS8 : String → Except String (Option Nat)
  newSignerFromKey : Nat → Except String Nat

/-- `loadPrivateKey` of `auth.go`. -/
def loadPrivateKey (env : KeyEnv) (keyPath : String) : Except String Nat :=
  match env.readFile keyPath with
  | Except.error e => Except.error e
  | Except.ok keyData =>
    match env.pemDecode keyData with
    | none => Except.error "failed to decode PEM block"
    | some block =>
      match env.parsePKCS1 block with
      | Except.ok key => Except.ok key
      | Except.error _ =>
        match env.parsePKCS8 block with
        | Except.error e => Except.error e
        | Except.ok none => Except.error "not an RSA private key"
        | Except.ok (some rsaKey) => Except.ok rsaKey

/-- An `ssh.AuthMethod`: `ssh.PublicKeys(signer)` or `ssh.Password(password)`. -/
inductive AuthMethod where
  | publicKeys (signer : Nat)
  | password (pw : String)
  deriving DecidableEq, Repr

/-- `buildAuthMethods` of `auth.go`. -/
def buildAuthMethods (env : KeyEnv) (keyPath password : String) :
    Except String (List AuthMethod) :=
  let authMethods : List AuthMethod := []
  let authMethods :=
    if keyPath ≠ "" then
      match loadPrivateKey env keyPath with
      | Except.ok key =>
        match env.newSignerFromKey key with
        | Except.ok signer => authMethods ++ [AuthMethod.publicKeys signer]
        | Except.error _ => authMethods
      | Except.error _ => authMethods
    else authMethods
  let authMethods :=
    if password ≠ "" then authMethods ++ [AuthMethod.password password] else authMethods
  if authMethods.length = 0 then Except.error "no authentication method provided"
  else Except.ok authMethods

/-- The signer `buildAuthMethods` ends up with, the outcome of loading and signing taken as
given: `some s` when `keyPath` is non-empty, the key loads and a signer `s` is derived from
it, `none` otherwise. -/
def loadedSigner (env : KeyEnv) (keyPath : String) : Option Nat :=
  if keyPath = "" then none
  else
    match loadPrivateKey env keyPath with
    | Except.error _ => none
    | Except.ok key =>
      match env.newSignerFromKey key with
      | Except.error _ => none
      | Except.ok signer => some signer

/-! ## The connection pool (`pool.go`) -/

/-- A transport handle, the target of a non-nil `*ssh.Client`. -/
abbrev Client := Nat

/-- `sshConnection` of `pool.go`; `client = none` is the nil pointer. -/
structure sshConnection where
  client : Option Client
  lastUsed : Int
  refCount : Int
  deriving DecidableEq, Repr

/-- `connectionPool` of `pool.go`. The map `connections` is the list of its entries; the order
of the list carries no meaning. -/
structure connectionPool where
  connections : List (String × sshConnection)
  maxIdleTime : Int
  cleanupInterval : Int
  deriving DecidableEq, Repr

/-- Map lookup `p.connections[key]`. -/
def lookupConn (m : List (String × sshConnection)) (key : String) : Option sshConnection :=
  match m with
  | [] => none
  | e :: rest => if e.1 = key then some e.2 else lookupConn rest key

/-- Map deletion `delete(p.connections, key)`. -/
def deleteConn (m : List (String × sshConnection)) (key : String) :
    List (String × sshConnection) :=
  m.filter (fun e => decide (e.1 ≠ key))

/-- Map store `p.connections[key] = conn`, also the write-back of an entry whose fields were
changed through its pointer. -/
def storeConn (m : List (String × sshConnection)) (key : String) (conn : sshConnection) :
    List (String × sshConnection) :=
  (key, conn) :: deleteConn m key

/-- The pool built by `initConnectionPool`. -/
def newPool : connectionPool :=
  { connections := [], maxIdleTime := 10 * minute, cleanupInterval := 5 * minute }

/-- `initConnectionPool` on the global `globalPool`, `none` before the first call: the pool is
built once and kept afterwards. -/
def initConnectionPool (globalPool : Option connectionPool) : connectionPool :=
  match globalPool with
  | some p => p
  | none => newPool

/-- What the environment decides during one `getConnection` call: whether the liveness probe
`conn.client.NewSession()` succeeds, the key material, the result of
`ssh.Dial("tcp", address, config)` for an address, user and method list, and `time.Now()`. -/
structure DialEnv where
  probeOk : Bool
  keys : KeyEnv
  dial : String → String → List AuthMethod → Except String Client
  now : Int

/-- The tail of `getConnection` of `pool.go` (from "创建新连接" on): compose the
authentication methods, dial, and register the new connection with `refCount` 1. -/
def dialConnection (p : connectionPool) (key host : String) (port : Int)
    (user password keyPath : String) (env : DialEnv) : connectionPool × Except String Client :=
  match buildAuthMethods env.keys keyPath password with
  | Except.error e => (p, Except.error e)
  | Except.ok authMethods =>
    let address := host ++ ":" ++ sprintfD port
    match env.dial address user authMethods with
    | Except.error e => (p, Except.error e)
    | Except.ok client =>
      let created : sshConnection := { client := some client, lastUsed := env.now, refCount := 1 }
      ({ p with connections := storeConn p.connections key created }, Except.ok client)

/-- `getConnection` of `pool.go`: the pool after the call and the value returned. -/
def getConnection (p : connectionPool) (host : String) (port : Int)
    (user password keyPath : String) (env : DialEnv) : connectionPool × Except String Client :=
  let key := connectionKey host port user
  match lookupConn p.connections key with
  | some conn =>
    match conn.client with
    | some client =>
      if env.probeOk then
        let reused : sshConnection :=
          { conn with refCount := wrapInt (conn.refCount + 1), lastUsed := env.now }
        ({ p with connections := storeConn p.connections key reused }, Except.ok client)
      else
        dialConnection { p with connections := deleteConn p.connections key }
          key host port user password keyPath env
    | none => dialConnection p key host port user password keyPath env
  | none => dialConnection p key host port user password keyPath env

/-- `releaseConnection` of `pool.go`: the pool after the call and the transports closed by
it. `now1` is the clock read by `conn.lastUsed = time.Now()`, `now2` the clock read
afterwards by `time.Since(conn.lastUsed)`. -/
def releaseConnection (p : connectionPool) (host : String) (port : Int) (user : String)
    (now1 now2 : Int) : connectionPool × List Client :=
  let key := connectionKey host port user
  match lookupConn p.connections key with
  | some conn0 =>
    let conn : sshConnection :=
      { conn0 with refCount := wrapInt (conn0.refCount - 1), lastUsed := now1 }
    if conn.refCount ≤ 0 ∧ p.maxIdleTime < timeSub now2 conn.lastUsed then
      ({ p with connections := deleteConn p.connections key }, conn.client.toList)
    else
      ({ p with connections := storeConn p.connections key conn }, [])
  | none => (p, [])

/-- The eviction test of `cleanupIdleConnections`:
`conn.refCount <= 0 && now.Sub(conn.lastUsed) > p.maxIdleTime`. -/
def idleExpired (maxIdleTime now : Int) (conn : sshConnection) : Bool :=
  decide (conn.refCount ≤ 0) && decide (maxIdleTime < timeSub now conn.lastUsed)

/-- One iteration of the loop of `cleanupIdleConnections`, on the map and the list of
transports closed so far. -/
def cleanupStep (maxIdleTime now : Int) (acc : List (String × sshConnection) × List Client)
    (e : String × sshConnection) : List (String × sshConnection) × List Client :=
  if idleExpired maxIdleTime now e.2 then
    (deleteConn acc.1 e.1, acc.2 ++ e.2.client.toList)
  else acc

/-- `cleanupIdleConnections` of `pool.go`, run when the clock reads `now`: the loop ranges
over the entries of the map and deletes from it; the result is the pool and the transports
closed. -/
def cleanupIdleConnections (p : connectionPool) (now : Int) : connectionPool × List Client :=
  let r := p.connections.foldl (cleanupStep p.maxIdleTime now) (p.connections, [])
  ({ p with connections := r.1 }, r.2)

/-- `getSSHConnection` of `pool.go`. -/
def getSSHConnection (globalPool : Option connectionPool) (host : String) (port : Int)
    (user password keyPath : String) (env : DialEnv) : connectionPool × Except String Client :=
  getConnection (initConnectionPool globalPool) host port user password keyPath env

/-- `releaseSSHConnection` of `pool.go`. -/
def releaseSSHConnection (globalPool : Option connectionPool) (host : String) (port : Int)
    (user : String) (now1 now2 : Int) : connectionPool × List Client :=
  releaseConnection (initConnectionPool globalPool) host port user now1 now2

/-! ## Sequences of pool calls -/

/-- One call on the pool, with what the environment decides during it. -/
inductive PoolCall where
  | acquire (host : String) (port : Int) (user password keyPath : String) (env : DialEnv)
  | release (host : String) (port : Int) (user : String) (now1 now2 : Int)
  | sweep (now : Int)

/-- The pool after one call. -/
def applyCall (p : connectionPool) (c : PoolCall) : connectionPool :=
  match c with
  | PoolCall.acquire host port user password keyPath env =>
    (getConnection p host port user password keyPath env).1
  | PoolCall.release host port user now1 now2 =>
    (releaseConnection p host port user now1 now2).1
  | PoolCall.sweep now => (cleanupIdleConnections p now).1

/-- The pool after a sequence of calls. -/
def runCalls (p : connectionPool) (calls : List PoolCall) : connectionPool :=
  calls.foldl applyCall p

/-- Every `refCount` in the pool is at least 0. -/
def refCountsNonneg (p : connectionPool) : Prop :=
  ∀ e ∈ p.connections, 0 ≤ e.2.refCount

/-- Every `refCount` in the pool lies between 0 and `bound`. -/
def refCountsWithin (bound : Int) (p : connectionPool) : Prop :=
  ∀ e ∈ p.connections, 0 ≤ e.2.refCount ∧ e.2.refCount ≤ bound

/-- A call is covered when it is not a release, or it is a release for an identity that has
no entry, or one whose entry has a positive `refCount` at the time of the call. -/
def callCovered (p : connectionPool) (c : PoolCall) : Bool :=
  match c with
  | PoolCall.release host port user _ _ =>
    match lookupConn p.connections (connectionKey host port user) with
    | some conn => decide (0 < conn.refCount)
    | none => true
  | _ => true

/-- Every call of the sequence is covered in the pool state it is made in. -/
def callsCovered (p : connectionPool) : List PoolCall → Bool
  | [] => true
  | c :: rest => callCovered p c && callsCovered (applyCall p c) rest

/-! ## Sequences of steps on one identity, with the acquisitions outstanding -/

/-- One step on a fixed identity `(host, port, user)`. -/
inductive IdentityStep where
  | acquire (password keyPath : String) (env : DialEnv)
  | release (now1 now2 : Int)
  | sweep (now : Int)

/-- A pool together with the transports returned by the successful acquires that have not
been released yet, the most recent first. -/
structure Tracked where
  pool : connectionPool
  held : List Client

/-- One step on the identity: the pool changes as the code changes it; a successful acquire
adds the transport it returned to the outstanding ones, a release retires one. -/
def trackStep (host : String) (port : Int) (user : String) (s : Tracked) (st : IdentityStep) :
    Tracked :=
  match st with
  | IdentityStep.acquire password keyPath env =>
    let r := getConnection s.pool host port user password keyPath env
    match r.2 with
    | Except.ok client => { pool := r.1, held := client :: s.held }
    | Except.error _ => { pool := r.1, held := s.held }
  | IdentityStep.release now1 now2 =>
    { pool := (releaseConnection s.pool host port user now1 now2).1, held := s.held.tail }
  | IdentityStep.sweep now =>
    { pool := (cleanupIdleConnections s.pool now).1, held := s.held }

/-- The state after a sequence of steps on the identity. -/
def trackRun (host : String) (port : Int) (user : String) (s : Tracked)
    (steps : List IdentityStep) : Tracked :=
  steps.foldl (trackStep host port user) s

/-- The `refCount` of the entry of a key, 0 when the key has no entry. -/
def refCountOf (p : connectionPool) (key : String) : Int :=
  match lookupConn p.connections key with
  | some conn => conn.refCount
  | none => 0

/-- Every release of the sequence follows a matching successful acquire that has not been
released yet. -/
def releasesMatched (host : String) (port : Int) (user : String) (s : Tracked) :
    List IdentityStep → Bool
  | [] => true
  | st :: rest =>
    (match st with
      | IdentityStep.release _ _ => !s.held.isEmpty
      | _ => true)
    && releasesMatched host port user (trackStep host port user s st) rest

/-- The step is an acquire whose liveness probe is made (the identity has an entry with a
transport) and fails. -/
def probeFails (host : String) (port : Int) (user : String) (s : Tracked)
    (st : IdentityStep) : Bool :=
  match st with
  | IdentityStep.acquire _ _ env =>
    match lookupConn s.pool.connections (connectionKey host port user) with
    | some conn => conn.client.isSome && !env.probeOk
    | none => false
  | _ => false

/-- No acquire of the sequence makes a liveness probe that fails. -/
def probesSucceed (host : String) (port : Int) (user : String) (s : Tracked) :
    List IdentityStep → Bool
  | [] => true
  | st :: rest =>
    !probeFails host port user s st
    && probesSucceed host port user (trackStep host port user s st) rest

/-- The outstanding transports are all the same one. -/
def sameTransport (held : List Client) : Prop :=
  ∀ a ∈ held, ∀ b ∈ held, a = b

/-! ## Encoding and escaping (`utils.go`) -/

/-- The alphabet of `base64.StdEncoding`. -/
def base64Alphabet : List Char :=
  "ABCDEFGHIJKLMNOPQRSTUVWXYZabcdefghijklmnopqrstuvwxyz0123456789+/".data

/-- The character of a 6-bit value in the standard alphabet. -/
def base64Char (n : Nat) : Char := base64Alphabet.getD n '='

/-- Standard base64 with padding, on a list of bytes. -/
def base64Groups : List Nat → List Char
  | [] => []
  | [a] => [base64Char (a / 4), base64Char (a % 4 * 16), '=', '=']
  | [a, b] =>
    [base64Char (a / 4), base64Char (a % 4 * 16 + b / 16), base64Char (b % 16 * 4), '=']
  | a :: b :: c :: rest =>
    base64Char (a / 4) :: base64Char (a % 4 * 16 + b / 16) ::
      base64Char (b % 16 * 4 + c / 64) :: base64Char (c % 64) :: base64Groups rest

/-- The bytes of a string, `[]byte(s)`. -/
def utf8Bytes (s : String) : List Nat :=
  (s.data.flatMap String.utf8EncodeChar).map UInt8.toNat

/-- `base64Encode` of `utils.go`: `base64.StdEncoding.EncodeToString([]byte(s))`. -/
def base64Encode (s : String) : String := String.mk (base64Groups (utf8Bytes s))

/-- `strings.ReplaceAll(s, old, new)` for a pattern `old` of one character. -/
def replaceAll (s : String) (old : Char) (new : String) : String :=
  String.mk (s.data.flatMap (fun c => if c = old then new.data else [c]))

/-- `escapeShellString` of `utils.go`: a backslash is put before every backslash (character
92), dollar sign, backquote (character 96) and double quote (character 34), in this order
of replacement. -/
def escapeShellString (s : String) : String :=
  let s := replaceAll s (Char.ofNat 92) "\\\\"
  let s := replaceAll s '$' "\\$"
  let s := replaceAll s (Char.ofNat 96) "\\\x60"
  let s := replaceAll s (Char.ofNat 34) "\\\x22"
  s

/-! ## The remote operation executor (`operations.go`) -/

/-- What the environment decides for the session opened on a transport: the outcome of
`client.NewSession()` and, for the call number `i` of `session.Run` on that session (counted
from 0) with command `cmd`, either the standard output collected or the error. -/
structure SessionEnv where
  newSession : Except String Unit
  run : Nat → String → Except String String

/-- The command of `readRemoteFile`: `fmt.Sprintf("cat %s", remotePath)`. -/
def readCommand (remotePath : String) : String := "cat " ++ remotePath

/-- `readRemoteFile` of `operations.go`: the commands passed to `session.Run`, in order, and
the value returned. -/
def readRemoteFile (env : SessionEnv) (remotePath : String) :
    List String × Except String String :=
  match env.newSession with
  | Except.error err => ([], Except.error ("failed to create session: " ++ err))
  | Except.ok _ =>
    let cmd := readCommand remotePath
    match env.run 0 cmd with
    | Except.error err => ([cmd], Except.error ("failed to read file: " ++ err))
    | Except.ok stdout => ([cmd], Except.ok stdout)

/-- The first command of `writeRemoteFile`:
`fmt.Sprintf("echo '%s' | base64 -d > %s", encodedContent, remotePath)`. -/
def writePrimaryCommand (remotePath content : String) : String :=
  "echo '" ++ base64Encode content ++ "' | base64 -d > " ++ remotePath

/-- The delimiter of `writeRemoteFile`: `fmt.Sprintf("PNANA_EOF_%d", os.Getpid())`. -/
def writeDelimiter (pid : Int) : String := "PNANA_EOF_" ++ sprintfD pid

/-- The second command of `writeRemoteFile`:
`fmt.Sprintf("cat > %s << '%s'\n%s\n%s", remotePath, delimiter, escapedContent, delimiter)`. -/
def writeFallbackCommand (remotePath content : String) (pid : Int) : String :=
  "cat > " ++ remotePath ++ " << '" ++ writeDelimiter pid ++ "'\n"
    ++ escapeShellString content ++ "\n" ++ writeDelimiter pid

/-- `writeRemoteFile` of `operations.go`, in the process `pid`: the commands passed to
`session.Run`, in order, and the value returned. -/
def writeRemoteFile (env : SessionEnv) (pid : Int) (remotePath content : String) :
    List String × Except String Unit :=
  match env.newSession with
  | Except.error err => ([], Except.error ("failed to create session: " ++ err))
  | Except.ok _ =>
    let cmd := writePrimaryCommand remotePath content
    match env.run 0 cmd with
    | Except.ok _ => ([cmd], Except.ok ())
    | Except.error _ =>
      let cmd2 := writeFallbackCommand remotePath content pid
      match env.run 1 cmd2 with
      | Except.error err => ([cmd, cmd2], Except.error ("failed to write file: " ++ err))
      | Except.ok _ => ([cmd, cmd2], Except.ok ())

/-- The first command of `uploadFileToRemote`:
`fmt.Sprintf("echo '%s' | base64 -d > '%s'", encodedContent, remotePath)`. The content
`localData` is the string holding the bytes read. -/
def uploadPrimaryCommand (remotePath localData : String) : String :=
  "echo '" ++ base64Encode localData ++ "' | base64 -d > '" ++ remotePath ++ "'"

/-- The delimiter of `uploadFileToRemote`:
`fmt.Sprintf("PNANA_UPLOAD_EOF_%d", os.Getpid())`. -/
def uploadDelimiter (pid : Int) : String := "PNANA_UPLOAD_EOF_" ++ sprintfD pid

/-- The second command of `uploadFileToRemote`:
`fmt.Sprintf("cat > '%s' << '%s'\n%s\n%s", remotePath, delimiter, escapedContent, delimiter)`. -/
def uploadFallbackCommand (remotePath localData : String) (pid : Int) : String :=
  "cat > '" ++ remotePath ++ "' << '" ++ uploadDelimiter pid ++ "'\n"
    ++ escapeShellString localData ++ "\n" ++ uploadDelimiter pid

/-- `uploadFileToRemote` of `operations.go`, in the process `pid`: the commands passed to
`session.Run`, in order, and the value returned. -/
def uploadFileToRemote (env : SessionEnv) (pid : Int) (remotePath localData : String) :
    List String × Except String Unit :=
  match env.newSession with
  | Except.error err => ([], Except.error ("failed to create session: " ++ err))
  | Except.ok _ =>
    let cmd := uploadPrimaryCommand remotePath localData
    match env.run 0 cmd with
    | Except.ok _ => ([cmd], Except.ok ())
    | Except.error _ =>
      let cmd2 := uploadFallbackCommand remotePath localData pid
      match env.run 1 cmd2 with
      | Except.error err => ([cmd, cmd2], Except.error ("failed to upload file: " ++ err))
      | Except.ok _ => ([cmd, cmd2], Except.ok ())

/-- The command of `downloadFileFromRemote`: `fmt.Sprintf("cat '%s'", remotePath)`. -/
def downloadCommand (remotePath : String) : String := "cat '" ++ remotePath ++ "'"

/-- `downloadFileFromRemote` of `operations.go`: the commands passed to `session.Run`, in
order, and the value returned. -/
def downloadFileFromRemote (env : SessionEnv) (remotePath : String) :
    List String × Except String String :=
  match env.newSession with
  | Except.error err => ([], Except.error ("failed to create session: " ++ err))
  | Except.ok _ =>
    let cmd := downloadCommand remotePath
    match env.run 0 cmd with
    | Except.error err => ([cmd], Except.error ("failed to read remote file: " ++ err))
    | Except.ok stdout => ([cmd], Except.ok stdout)

/-- Whether an `error` value is non-nil. -/
def failed {α : Type} (r : Except String α) : Bool :=
  match r with
  | Except.error _ => true
  | Except.ok _ => false

/-- A heredoc command as the design document words it: `cat > target << 'DELIM'`, the body,
and a closing `DELIM` line. -/
def heredocCommand (target delimiter body : String) : String :=
  "cat > " ++ target ++ " << '" ++ delimiter ++ "'\n" ++ body ++ "\n" ++ delimiter

/-- A base64 pipeline command as the design document words it: the encoded content echoed
into `base64 -d`, redirected to the target. -/
def base64PipeCommand (target content : String) : String :=
  "echo '" ++ base64Encode content ++ "' | base64 -d > " ++ target

/-! ## The remote shell on a heredoc -/

/-- The lines of a text, split at the newline characters; `cur` is the line being read, in
reverse. -/
def splitLinesAux (cur : List Char) : List Char → List (List Char)
  | [] => [cur.reverse]
  | c :: rest =>
    if c = '\n' then cur.reverse :: splitLinesAux [] rest
    else splitLinesAux (c :: cur) rest

/-- The lines of a text. -/
def splitLines (text : List Char) : List (List Char) := splitLinesAux [] text

/-- The body of a heredoc with a quoted delimiter: the lines up to the first line equal to
the delimiter, taken verbatim. -/
def heredocBody (delimiter : List Char) : List (List Char) → List (List Char)
  | [] => []
  | line :: rest => if line = delimiter then [] else line :: heredocBody delimiter rest

/-- The bytes a POSIX shell feeds to `cat`, and `cat` writes to the redirection target, for
a command made of the line `cat > P << 'DELIM'` followed by further lines: no expansion is
done in the body since the delimiter is quoted, and every body line ends with a newline. -/
def heredocWritten (delimiter command : String) : String :=
  match splitLines command.data with
  | [] => ""
  | _ :: lines => String.mk ((heredocBody delimiter.data lines).flatMap (fun l => l ++ ['\n']))

/-! ## The entry points (`client.go`) -/

/-- The C structure `SSHConfig_C`, each `char*` read with `C.GoString`. -/
structure SSHConfig_C where
  host : String
  user : String
  password : String
  key_path : String
  port : Int
  remote_path : String

/-- `sshOperationConfig` of `operations.go`. -/
structure sshOperationConfig where
  host : String
  user : String
  password : String
  keyPath : String
  port : Int
  remotePath : String

/-- `parseSSHConfig` of `operations.go`. -/
def parseSSHConfig (config : SSHConfig_C) : sshOperationConfig :=
  let port := if config.port = 0 then 22 else config.port
  { host := config.host, user := config.user, password := config.password,
    keyPath := config.key_path, port := port, remotePath := config.remote_path }

/-- The C structure `SSHResult_C`; `none` is a nil `char*`. -/
structure SSHResult_C where
  success : Int
  content : Option String
  error : Option String
  deriving DecidableEq, Repr

/-- `setResultError` of `operations.go`. -/
def setResultError (result : SSHResult_C) (err : String) : SSHResult_C :=
  { result with success := 0, error := some err }

/-- `setResultSuccess` of `operations.go`. -/
def setResultSuccess (result : SSHResult_C) (content : String) : SSHResult_C :=
  { result with success := 1, content := some content }

/-- A call an entry point makes on the pool, a session or the local file system. -/
inductive Event where
  | acquire (host : String) (port : Int) (user : String)
  | release (host : String) (port : Int) (user : String)
  | run (cmd : String)
  | readLocal (path : String)
  | writeLocal (path : String) (data : String)
  deriving DecidableEq, Repr

/-- What the environment decides during one entry point: everything `getSSHConnection`
depends on, the session of the transport obtained, the process id, `os.ReadFile`,
`os.WriteFile`, and the two clock readings of `releaseSSHConnection`. -/
structure OpEnv where
  connect : DialEnv
  session : Client → SessionEnv
  pid : Int
  readFile : String → Except String String
  writeFile : String → String → Except String Unit
  releaseNow1 : Int
  releaseNow2 : Int

/-- What an entry point leaves behind: the global pool, the calls made in order, and the
result record returned. -/
structure Outcome where
  pool : connectionPool
  events : List Event
  result : SSHResult_C

/-- The return of an entry point past its statement
`defer releaseSSHConnection(opConfig.host, opConfig.port, opConfig.user)`: the deferred call
runs on the pool, after the calls made so far, and the result is returned. -/
def deferredRelease (pool : connectionPool) (opConfig : sshOperationConfig) (env : OpEnv)
    (events : List Event) (result : SSHResult_C) : Outcome :=
  { pool := (releaseSSHConnection (some pool) opConfig.host opConfig.port opConfig.user
      env.releaseNow1 env.releaseNow2).1,
    events := events ++ [Event.release opConfig.host opConfig.port opConfig.user],
    result := result }

/-- `ConnectAndReadFile` of `client.go`. -/
def ConnectAndReadFile (globalPool : Option connectionPool) (config : SSHConfig_C)
    (env : OpEnv) : Outcome :=
  let result : SSHResult_C := { success := 0, content := none, error := none }
  let opConfig := parseSSHConfig config
  let acquired := getSSHConnection globalPool opConfig.host opConfig.port opConfig.user
    opConfig.password opConfig.keyPath env.connect
  let events := [Event.acquire opConfig.host opConfig.port opConfig.user]
  match acquired.2 with
  | Except.error err =>
    { pool := acquired.1, events := events,
      result := setResultError result ("failed to connect: " ++ err) }
  | Except.ok client =>
    let read := readRemoteFile (env.session client) opConfig.remotePath
    let events := events ++ read.1.map Event.run
    match read.2 with
    | Except.error err =>
      deferredRelease acquired.1 opConfig env events (setResultError result err)
    | Except.ok content =>
      deferredRelease acquired.1 opConfig env events (setResultSuccess result content)

/-- `ConnectAndWriteFile` of `client.go`. -/
def ConnectAndWriteFile (globalPool : Option connectionPool) (config : SSHConfig_C)
    (content : String) (env : OpEnv) : Outcome :=
  let result : SSHResult_C := { success := 0, content := none, error := none }
  let opConfig := parseSSHConfig config
  let fileContent := content
  let acquired := getSSHConnection globalPool opConfig.host opConfig.port opConfig.user
    opConfig.password opConfig.keyPath env.connect
  let events := [Event.acquire opConfig.host opConfig.port opConfig.user]
  match acquired.2 with
  | Except.error err =>
    { pool := acquired.1, events := events,
      result := setResultError result ("failed to connect: " ++ err) }
  | Except.ok client =>
    let written := writeRemoteFile (env.session client) env.pid opConfig.remotePath fileContent
    let events := events ++ written.1.map Event.run
    match written.2 with
    | Except.error err =>
      deferredRelease acquired.1 opConfig env events (setResultError result err)
    | Except.ok _ =>
      deferredRelease acquired.1 opConfig env events { result with success := 1 }

/-- `UploadFile` of `client.go`. -/
def UploadFile (globalPool : Option connectionPool) (config : SSHConfig_C)
    (localPath remotePath : String) (env : OpEnv) : Outcome :=
  let result : SSHResult_C := { success := 0, content := none, error := none }
  let opConfig := parseSSHConfig config
  let localFilePath := localPath
  let remoteFilePath := remotePath
  let acquired := getSSHConnection globalPool opConfig.host opConfig.port opConfig.user
    opConfig.password opConfig.keyPath env.connect
  let events := [Event.acquire opConfig.host opConfig.port opConfig.user]
  match acquired.2 with
  | Except.error err =>
    { pool := acquired.1, events := events,
      result := setResultError result ("failed to connect: " ++ err) }
  | Except.ok client =>
    let events := events ++ [Event.readLocal localFilePath]
    match env.readFile localFilePath with
    | Except.error err =>
      deferredRelease acquired.1 opConfig env events
        (setResultError result ("failed to read local file: " ++ err))
    | Except.ok localData =>
      let uploaded := uploadFileToRemote (env.session client) env.pid remoteFilePath localData
      let events := events ++ uploaded.1.map Event.run
      match uploaded.2 with
      | Except.error err =>
        deferredRelease acquired.1 opConfig env events (setResultError result err)
      | Except.ok _ =>
        deferredRelease acquired.1 opConfig env events { result with success := 1 }

/-- `DownloadFile` of `client.go`. -/
def DownloadFile (globalPool : Option connectionPool) (config : SSHConfig_C)
    (remotePath localPath : String) (env : OpEnv) : Outcome :=
  let result : SSHResult_C := { success := 0, content := none, error := none }
  let opConfig := parseSSHConfig config
  let remoteFilePath := remotePath
  let localFilePath := localPath
  let acquired := getSSHConnection globalPool opConfig.host opConfig.port opConfig.user
    opConfig.password opConfig.keyPath env.connect
  let events := [Event.acquire opConfig.host opConfig.port opConfig.user]
  match acquired.2 with
  | Except.error err =>
    { pool := acquired.1, events := events,
      result := setResultError result ("failed to connect: " ++ err) }
  | Except.ok client =>
    let downloaded := downloadFileFromRemote (env.session client) remoteFilePath
    let events := events ++ downloaded.1.map Event.run
    match downloaded.2 with
    | Except.error err =>
      deferredRelease acquired.1 opConfig env events (setResultError result err)
    | Except.ok fileContent =>
      let events := events ++ [Event.writeLocal localFilePath fileContent]
      match env.writeFile localFilePath fileContent with
      | Except.error err =>
        deferredRelease acquired.1 opConfig env events
          (setResultError result ("failed to write local file: " ++ err))
      | Except.ok _ =>
        deferredRelease acquired.1 opConfig env events { result with success := 1 }

/-- The event is a call of `releaseSSHConnection`. -/
def isRelease (e : Event) : Bool :=
  match e with
  | Event.release _ _ _ => true
  | _ => false

/-- The calls made by an entry point whose acquire succeeded: the first is the acquire for
the identity, exactly one is a release, it is for the same identity, and it is the last
call before the return. -/
def releasedOnce (host : String) (port : Int) (user : String) (events : List Event) : Prop :=
  events.head? = some (Event.acquire host port user)
  ∧ events.filter isRelease = [Event.release host port user]
  ∧ events.getLast? = some (Event.release host port user)

/-- The pool effect of a successful acquire on the identity `key`, from the pool `before`:
the entry of the identity holds the transport returned, and its `refCount` is one more than
the count of the entry reused (an entry with a transport whose liveness probe succeeded), or
1 when a new connection was registered. -/
def acquireCounted (before after : connectionPool) (key : String) (probeOk : Bool)
    (client : Client) : Prop :=
  ∃ conn, lookupConn after.connections key = some conn ∧ conn.client = some client
    ∧ conn.refCount =
        (match lookupConn before.connections key with
          | some conn0 =>
            if conn0.client.isSome = true ∧ probeOk = true then wrapInt (conn0.refCount + 1)
            else 1
          | none => 1)

/-- The pool effect of the deferred release on the identity `key`, from the pool the acquire
left: the entry of the identity is kept with its transport and its `refCount` taken down by
one, or it has been reclaimed, which happens only when the count taken down by one is at
most 0; the entry of every other key and the thresholds of the pool are as the acquire left
them. -/
def refCountUndone (afterAcquire final : connectionPool) (key : String) : Prop :=
  (∃ conn, lookupConn afterAcquire.connections key = some conn
    ∧ ((lookupConn final.connections key = none ∧ wrapInt (conn.refCount - 1) ≤ 0)
      ∨ ∃ conn2, lookupConn final.connections key = some conn2
          ∧ conn2.refCount = wrapInt (conn.refCount - 1) ∧ conn2.client = conn.client))
  ∧ (∀ other, other ≠ key →
      lookupConn final.connections other = lookupConn afterAcquire.connections other)
  ∧ final.maxIdleTime = afterAcquire.maxIdleTime
  ∧ final.cleanupInterval = afterAcquire.cleanupInterval

/-! ## Concrete environments -/

/-- A key environment with no readable key file. -/
def noKeys : KeyEnv :=
  { readFile := fun _ => Except.error "no such file"
    pemDecode := fun _ => none
    parsePKCS1 := fun _ => Except.error "not PKCS#1"
    parsePKCS8 := fun _ => Except.error "not PKCS#8"
    newSignerFromKey := fun k => Except.ok k }

/-- A key environment in which every path holds the PKCS#1 key 7, whose signer is 7. -/
def oneKey : KeyEnv :=
  { readFile := fun _ => Except.ok "pem"
    pemDecode := fun _ => some "der"
    parsePKCS1 := fun _ => Except.ok 7
    parsePKCS8 := fun _ => Except.error "not PKCS#8"
    newSignerFromKey := fun k => Except.ok k }

/-- An environment for `getConnection`: the probe outcome, the transport a dial would
return, and the clock. -/
def dialEnv (probeOk : Bool) (client : Client) (now : Int) : DialEnv :=
  { probeOk := probeOk, keys := noKeys, dial := fun _ _ _ => Except.ok client, now := now }

/-- A session on which every command fails. -/
def badSession : SessionEnv :=
  { newSession := Except.ok (), run := fun _ _ => Except.error "exit status 1" }

/-- An environment for an entry point: the dial returns transport 1, commands fail, local
files are missing. -/
def failingOpEnv : OpEnv :=
  { connect := dialEnv true 1 0, session := fun _ => badSession, pid := 4242,
    readFile := fun _ => Except.error "no such file",
    writeFile := fun _ _ => Except.error "read-only",
    releaseNow1 := 5, releaseNow2 := 5 }

/-- An environment for an entry point on a pool that already holds the identity: the
liveness probe succeeds, commands succeed with empty output, local files are accessible. -/
def reusingOpEnv : OpEnv :=
  { connect := dialEnv true 9 100, session := fun _ =>
      { newSession := Except.ok (), run := fun _ _ => Except.ok "" }, pid := 4242,
    readFile := fun _ => Except.ok "data",
    writeFile := fun _ _ => Except.ok (),
    releaseNow1 := 105, releaseNow2 := 105 }

/-- A pool in use: the identity `("h", 22, "u")` holds transport 1 with three references,
and the identity `("other", 22, "u")` holds transport 2 with one reference. -/
def busyPool : connectionPool :=
  { connections :=
      [("h:22:u", { client := some 1, lastUsed := 50, refCount := 3 }),
       ("other:22:u", { client := some 2, lastUsed := 60, refCount := 1 })],
    maxIdleTime := 10 * minute, cleanupInterval := 5 * minute }

/-- A configuration record for host `h`, user `u`, password `pw`, no port given. -/
def sampleConfig : SSHConfig_C :=
  { host := "h", user := "u", password := "pw", key_path := "", port := 0,
    remote_path := "/tmp/f" }

/-! ## The scenario of the design document -/

/-- The key of the identity `("h", 22, "u")`. -/
def scenarioKey : String := connectionKey "h" 22 "u"

/-- First acquire on the new pool, at time 0: the dial returns transport 1. -/
def scenarioFirst : connectionPool × Except String Client :=
  getConnection newPool "h" 22 "u" "pw" "" (dialEnv true 1 0)

/-- Second acquire of the same identity, at time 1; a dial would return transport 2. -/
def scenarioSecond : connectionPool × Except String Client :=
  getConnection scenarioFirst.1 "h" 22 "u" "pw" "" (dialEnv true 2 1)

/-- First release, at time 2. -/
def scenarioRelease1 : connectionPool × List Client :=
  releaseConnection scenarioSecond.1 "h" 22 "u" 2 2

/-- Second release, at time 3. -/
def scenarioRelease2 : connectionPool × List Client :=
  releaseConnection scenarioRelease1.1 "h" 22 "u" 3 3

/-- The sweep, run once the clock has advanced past `maxIdleTime` since the last release. -/
def scenarioSweep : connectionPool × List Client :=
  cleanupIdleConnections scenarioRelease2.1 (3 + 10 * minute + 1)

/-- The acquire after the sweep; the dial returns transport 2. -/
def scenarioThird : connectionPool × Except String Client :=
  getConnection scenarioSweep.1 "h" 22 "u" "pw" "" (dialEnv true 2 (3 + 10 * minute + 2))

/-- A pool holding one entry for `("h", 22, "u")`, with transport 1, one reference, last
used at time 0. -/
def idlePool : connectionPool :=
  { connections := [("h:22:u", { client := some 1, lastUsed := 0, refCount := 1 })],
    maxIdleTime := 10 * minute, cleanupInterval := 5 * minute }

/-- The shape of a pool used for one identity only, next to the acquisitions outstanding: the
pool is empty and nothing is outstanding, or the pool holds the single entry of the identity,
with a transport, whose `refCount` is the number of outstanding acquisitions, all of which
returned that transport. -/
def trackedInv (key : String) (s : Tracked) : Prop :=
  (s.pool.connections = [] ∧ s.held = [])
  ∨ ∃ conn cl, s.pool.connections = [(key, conn)] ∧ conn.client = some cl
      ∧ conn.refCount = s.held.length ∧ ∀ a ∈ s.held, a = cl

/-- Two acquires of `("h", 22, "u")`: the first dials transport 1; the liveness probe of the
second fails and its dial returns transport 2. -/
def failedProbeSteps : List IdentityStep :=
  [IdentityStep.acquire "pw" "" (dialEnv true 1 0),
   IdentityStep.acquire "pw" "" (dialEnv false 2 1)]

/-- Two acquires of one identity, a release, a sweep and a release, every probe succeeding. -/
def sharedSteps : List IdentityStep :=
  [IdentityStep.acquire "pw" "" (dialEnv true 1 0),
   IdentityStep.acquire "pw" "" (dialEnv true 2 1),
   IdentityStep.release 2 2,
   IdentityStep.sweep (20 * minute),
   IdentityStep.release (21 * minute) (21 * minute)]

/-- An acquire of `("h", 22, "u")` followed by its release. -/
def pairedCalls : List PoolCall :=
  [PoolCall.acquire "h" 22 "u" "pw" "" (dialEnv true 1 0),
   PoolCall.release "h" 22 "u" 1 1]

/-! ## The connection key -/


theorem digitVal_digitChar (k : Nat) (h : k < 10) : digitVal (Nat.digitChar k) = k := by
  interval_cases k <;> rfl

theorem foldl_toDigitsCore (fuel : Nat) : ∀ (n : Nat) (ds : List Char), n < fuel →
    (Nat.toDigitsCore 10 fuel n ds).foldl (fun a c => 10 * a + digitVal c) 0
      = ds.foldl (fun a c => 10 * a + digitVal c) n := by
  induction fuel with
  | zero => intro n ds h; omega
  | succ f ih =>
    intro n ds h
    simp only [Nat.toDigitsCore]
    split
    · rename_i h0
      simp only [List.foldl_cons, Nat.mul_zero, Nat.zero_add]
      rw [digitVal_digitChar _ (Nat.mod_lt _ (by decide))]
      congr 1; omega
    · rename_i h0
      rw [ih (n / 10) _ (by omega)]
      simp only [List.foldl_cons]
      rw [digitVal_digitChar _ (Nat.mod_lt _ (by decide))]
      congr 1; omega

theorem toDigits_injective (m n : Nat) (h : Nat.toDigits 10 m = Nat.toDigits 10 n) : m = n := by
  have hm := foldl_toDigitsCore (m + 1) m [] (by omega)
  have hn := foldl_toDigitsCore (n + 1) n [] (by omega)
  simp only [List.foldl_nil] at hm hn
  unfold Nat.toDigits at h
  rw [h] at hm
  omega


theorem digitChar_notSeparator (k : Nat) (h : k < 10) : notSeparator (Nat.digitChar k) := by
  interval_cases k <;> exact ⟨by decide, by decide, by decide⟩

theorem toDigitsCore_notSeparator (fuel : Nat) : ∀ (n : Nat) (ds : List Char),
    (∀ c ∈ ds, notSeparator c) → ∀ c ∈ Nat.toDigitsCore 10 fuel n ds, notSeparator c := by
  induction fuel with
  | zero => intro n ds h; simpa [Nat.toDigitsCore] using h
  | succ f ih =>
    intro n ds h
    have hd : ∀ c ∈ Nat.digitChar (n % 10) :: ds, notSeparator c := by
      intro c hc
      rcases List.mem_cons.1 hc with rfl | hc
      · exact digitChar_notSeparator _ (Nat.mod_lt _ (by decide))
      · exact h c hc
    simp only [Nat.toDigitsCore]
    split
    · exact hd
    · exact ih _ _ hd

theorem toDigits_notSeparator (n : Nat) : ∀ c ∈ Nat.toDigits 10 n, notSeparator c :=
  toDigitsCore_notSeparator _ _ _ (by simp)

theorem sprintfD_data_ofNat (m : Nat) : (sprintfD (Int.ofNat m)).data = Nat.toDigits 10 m := rfl

theorem sprintfD_data_negSucc (m : Nat) :
    (sprintfD (Int.negSucc m)).data = '-' :: Nat.toDigits 10 (m + 1) := by
  simp [sprintfD, Nat.repr, List.asString, String.data_append]

theorem sprintfD_no_colon (n : Int) : ':' ∉ (sprintfD n).data := by
  intro h
  cases n with
  | ofNat m =>
    rw [sprintfD_data_ofNat] at h
    exact (toDigits_notSeparator m _ h).1 rfl
  | negSucc m =>
    rw [sprintfD_data_negSucc] at h
    rcases List.mem_cons.1 h with h | h
    · exact absurd h (by decide)
    · exact (toDigits_notSeparator _ _ h).1 rfl

theorem sprintfD_injective (a b : Int) (h : sprintfD a = sprintfD b) : a = b := by
  have hd : (sprintfD a).data = (sprintfD b).data := by rw [h]
  cases a with
  | ofNat m =>
    cases b with
    | ofNat n =>
      rw [sprintfD_data_ofNat, sprintfD_data_ofNat] at hd
      rw [toDigits_injective m n hd]
    | negSucc n =>
      rw [sprintfD_data_ofNat, sprintfD_data_negSucc] at hd
      have : '-' ∈ Nat.toDigits 10 m := by rw [hd]; exact List.mem_cons_self _ _
      exact absurd rfl (toDigits_notSeparator m _ this).2.1
  | negSucc m =>
    cases b with
    | ofNat n =>
      rw [sprintfD_data_ofNat, sprintfD_data_negSucc] at hd
      have : '-' ∈ Nat.toDigits 10 n := by rw [← hd]; exact List.mem_cons_self _ _
      exact absurd rfl (toDigits_notSeparator n _ this).2.1
    | negSucc n =>
      rw [sprintfD_data_negSucc, sprintfD_data_negSucc] at hd
      have := toDigits_injective _ _ (List.cons.inj hd).2
      have : m = n := by omega
      rw [this]

theorem split_at_colon : ∀ (a b x y : List Char), ':' ∉ a → ':' ∉ b →
    a ++ ':' :: x = b ++ ':' :: y → a = b ∧ x = y := by
  intro a
  induction a with
  | nil =>
    intro b x y _ hb h
    cases b with
    | nil => exact ⟨rfl, by simpa using h⟩
    | cons c b =>
      simp only [List.nil_append, List.cons_append, List.cons.injEq] at h
      exact absurd (h.1 ▸ List.mem_cons_self _ _) hb
  | cons c a ih =>
    intro b x y ha hb h
    cases b with
    | nil =>
      simp only [List.nil_append, List.cons_append, List.cons.injEq] at h
      exact absurd (h.1 ▸ List.mem_cons_self _ _) ha
    | cons d b =>
      simp only [List.cons_append, List.cons.injEq] at h
      have := ih b x y (fun hm => ha (List.mem_cons_of_mem _ hm))
        (fun hm => hb (List.mem_cons_of_mem _ hm)) h.2
      exact ⟨by rw [h.1, this.1], this.2⟩

theorem connectionKey_data (h : String) (p : Int) (u : String) :
    (connectionKey h p u).data = h.data ++ ':' :: ((sprintfD p).data ++ ':' :: u.data) := by
  simp [connectionKey, String.data_append]

/-- C4, as stated, fails: the identities `("a", 1, "2:b")` and `("a:1", 2, "b")` have the
same connection key `a:1:2:b` although host, port and user all differ. -/
theorem connectionKey_collision :
    connectionKey "a" 1 "2:b" = connectionKey "a:1" 2 "b"
    ∧ connectionKey "a" 1 "2:b" = "a:1:2:b"
    ∧ ("a" : String) ≠ "a:1" ∧ (1 : Int) ≠ 2 ∧ ("2:b" : String) ≠ "b" := by
  decide

/-- C4, amended. `connectionKey` is injective on the identities whose host contains no `:`:
for such hosts, equal keys imply equal hosts, equal ports and equal users, so two different
identities of this kind never share a pool entry. -/
theorem connectionKey_injective_of_no_colon (h1 h2 : String) (p1 p2 : Int) (u1 u2 : String)
    (hh1 : ':' ∉ h1.data) (hh2 : ':' ∉ h2.data)
    (hk : connectionKey h1 p1 u1 = connectionKey h2 p2 u2) :
    h1 = h2 ∧ p1 = p2 ∧ u1 = u2 := by
  have hd : (connectionKey h1 p1 u1).data = (connectionKey h2 p2 u2).data := by rw [hk]
  rw [connectionKey_data, connectionKey_data] at hd
  obtain ⟨e1, r1⟩ := split_at_colon _ _ _ _ hh1 hh2 hd
  obtain ⟨e2, e3⟩ := split_at_colon _ _ _ _ (sprintfD_no_colon p1) (sprintfD_no_colon p2) r1
  exact ⟨String.ext e1, sprintfD_injective _ _ (String.ext e2), String.ext e3⟩

/-- C4, at concrete inputs: the hosts `example.org` and `example.org` hold no `:`, and the
key of `("example.org", 22, "root")` is `example.org:22:root`. -/
theorem connectionKey_injective_of_no_colon_witness :
    ':' ∉ ("example.org" : String).data
    ∧ connectionKey "example.org" 22 "root" = "example.org:22:root"
    ∧ ("example.org" : String) = "example.org" ∧ (22 : Int) = 22 ∧ ("root" : String) = "root" :=
  ⟨by decide, by decide,
    connectionKey_injective_of_no_colon "example.org" "example.org" 22 22 "root" "root"
      (by decide) (by decide) rfl⟩

/-! ## Lemmas on the map operations -/

theorem lookupConn_deleteConn (m : List (String × sshConnection)) (k key : String) :
    lookupConn (deleteConn m k) key = if key = k then none else lookupConn m key := by
  induction m with
  | nil => simp [deleteConn, lookupConn]
  | cons e rest ih =>
    unfold deleteConn at ih ⊢
    by_cases hk : e.1 = k
    · simp only [List.filter, hk, ne_eq, not_true_eq_false, decide_False]
      rw [ih]
      by_cases h2 : key = k
      · simp [h2]
      · have : ¬ k = key := fun h => h2 h.symm
        simp [h2, lookupConn, hk, this]
    · simp only [List.filter, hk, ne_eq, not_false_eq_true, decide_True, lookupConn]
      rw [ih]
      by_cases h2 : key = k
      · have : ¬ e.1 = key := by rw [h2]; exact hk
        simp [h2, hk]
      · simp [h2]

theorem lookupConn_storeConn (m : List (String × sshConnection)) (k key : String)
    (c : sshConnection) :
    lookupConn (storeConn m k c) key = if key = k then some c else lookupConn m key := by
  unfold storeConn
  by_cases h : key = k
  · simp [lookupConn, h]
  · have : ¬ k = key := fun h2 => h h2.symm
    simp [lookupConn, this, lookupConn_deleteConn, h]

theorem lookupConn_eq_some_iff (m : List (String × sshConnection))
    (hm : (m.map Prod.fst).Nodup) (key : String) (c : sshConnection) :
    lookupConn m key = some c ↔ (key, c) ∈ m := by
  induction m with
  | nil => simp [lookupConn]
  | cons e rest ih =>
    rw [List.map_cons, List.nodup_cons] at hm
    by_cases hk : e.1 = key
    · simp only [lookupConn, hk, if_true, List.mem_cons]
      constructor
      · intro h
        left
        cases e
        simp only [Option.some.injEq] at h
        simp only at hk
        rw [← h, ← hk]
      · intro h
        rcases h with h | h
        · rw [← h]
        · exfalso
          apply hm.1
          rw [hk]
          exact List.mem_map.2 ⟨(key, c), h, rfl⟩
    · simp only [lookupConn, hk, if_false, List.mem_cons]
      rw [ih hm.2]
      constructor
      · exact fun h => Or.inr h
      · intro h
        rcases h with h | h
        · exfalso; apply hk; rw [← h]
        · exact h

theorem cleanup_foldl_lookup (maxIdle now : Int) (key : String) :
    ∀ (todo acc : List (String × sshConnection)) (closed : List Client),
      lookupConn (todo.foldl (cleanupStep maxIdle now) (acc, closed)).1 key =
        if (∃ e ∈ todo, e.1 = key ∧ idleExpired maxIdle now e.2 = true) then none
        else lookupConn acc key := by
  intro todo
  induction todo with
  | nil => intro acc closed; simp
  | cons e rest ih =>
    intro acc closed
    simp only [List.foldl_cons]
    by_cases hx : idleExpired maxIdle now e.2 = true
    · simp only [cleanupStep, hx, if_true]
      rw [ih, lookupConn_deleteConn]
      by_cases h1 : ∃ e' ∈ rest, e'.1 = key ∧ idleExpired maxIdle now e'.2 = true
      · have : ∃ e' ∈ e :: rest, e'.1 = key ∧ idleExpired maxIdle now e'.2 = true := by
          obtain ⟨e', h, h'⟩ := h1
          exact ⟨e', List.mem_cons_of_mem _ h, h'⟩
        simp [h1, this]
      · by_cases h2 : key = e.1
        · have : ∃ e' ∈ e :: rest, e'.1 = key ∧ idleExpired maxIdle now e'.2 = true :=
            ⟨e, List.mem_cons_self _ _, h2.symm, hx⟩
          rw [if_neg h1, if_pos h2, if_pos this]
        · have : ¬ ∃ e' ∈ e :: rest, e'.1 = key ∧ idleExpired maxIdle now e'.2 = true := by
            rintro ⟨e', hm, hk, he⟩
            rcases List.mem_cons.1 hm with rfl | hm
            · exact h2 hk.symm
            · exact h1 ⟨e', hm, hk, he⟩
          rw [if_neg h1, if_neg h2, if_neg this]
    · have hstep : cleanupStep maxIdle now (acc, closed) e = (acc, closed) := by
        simp [cleanupStep, hx]
      rw [hstep, ih]
      have : (∃ e' ∈ e :: rest, e'.1 = key ∧ idleExpired maxIdle now e'.2 = true) ↔
          (∃ e' ∈ rest, e'.1 = key ∧ idleExpired maxIdle now e'.2 = true) := by
        constructor
        · rintro ⟨e', hm, hk, he⟩
          rcases List.mem_cons.1 hm with rfl | hm
          · exact absurd he hx
          · exact ⟨e', hm, hk, he⟩
        · rintro ⟨e', hm, h'⟩
          exact ⟨e', List.mem_cons_of_mem _ hm, h'⟩
      simp only [this]

theorem cleanup_foldl_closed (maxIdle now : Int) :
    ∀ (todo acc : List (String × sshConnection)) (closed : List Client),
      (todo.foldl (cleanupStep maxIdle now) (acc, closed)).2 =
        closed ++ (todo.filter (fun e => idleExpired maxIdle now e.2)).flatMap
          (fun e => e.2.client.toList) := by
  intro todo
  induction todo with
  | nil => intro acc closed; simp
  | cons e rest ih =>
    intro acc closed
    simp only [List.foldl_cons]
    by_cases hx : idleExpired maxIdle now e.2 = true
    · simp only [cleanupStep, hx, if_true]
      rw [ih]
      simp [List.filter, hx, List.append_assoc]
    · have hstep : cleanupStep maxIdle now (acc, closed) e = (acc, closed) := by
        simp [cleanupStep, hx]
      rw [hstep, ih]
      simp [List.filter, hx]

theorem timeSub_gt_iff (maxIdle t u : Int) (hlo : minDuration ≤ maxIdle)
    (hhi : maxIdle < maxDuration) : maxIdle < timeSub t u ↔ maxIdle < t - u := by
  unfold timeSub
  unfold minDuration at *
  unfold maxDuration at *
  split
  · constructor <;> intro _ <;> omega
  · split
    · constructor <;> intro _ <;> omega
    · exact Iff.rfl

/-! ## Authentication methods -/

/-- C7. `buildAuthMethods`, the outcome of loading and signing the key taken as given
(`loadedSigner`): a signer and a non-empty password give the public-key method followed by
the password method; a signer and an empty password give the public-key method alone; no
signer (empty key path, or a key that does not load or sign) and a non-empty password give
the password method alone; the call fails exactly when the password is empty and there is
no signer, and the only failure is "no authentication method provided"; a list returned is
never empty, and a public-key method in it is its first element. -/
theorem buildAuthMethods_cases (env : KeyEnv) (keyPath password : String) :
    (∀ s, loadedSigner env keyPath = some s → password ≠ "" →
        buildAuthMethods env keyPath password
          = Except.ok [AuthMethod.publicKeys s, AuthMethod.password password])
    ∧ (∀ s, loadedSigner env keyPath = some s → password = "" →
        buildAuthMethods env keyPath password = Except.ok [AuthMethod.publicKeys s])
    ∧ (loadedSigner env keyPath = none → password ≠ "" →
        buildAuthMethods env keyPath password = Except.ok [AuthMethod.password password])
    ∧ (keyPath = "" → loadedSigner env keyPath = none)
    ∧ ((∀ key, loadPrivateKey env keyPath ≠ Except.ok key) → loadedSigner env keyPath = none)
    ∧ (buildAuthMethods env keyPath password
          = Except.error "no authentication method provided"
        ↔ password = "" ∧ loadedSigner env keyPath = none)
    ∧ (∀ e, buildAuthMethods env keyPath password = Except.error e →
        e = "no authentication method provided")
    ∧ (∀ l, buildAuthMethods env keyPath password = Except.ok l →
        l ≠ [] ∧ ∀ s, AuthMethod.publicKeys s ∈ l → l.head? = some (AuthMethod.publicKeys s)) := by
  unfold buildAuthMethods loadedSigner
  by_cases hk : keyPath = "" <;> by_cases hp : password = ""
  all_goals
    cases hl : loadPrivateKey env keyPath with
    | error e => simp [hk, hp]
    | ok key =>
      cases hs : env.newSignerFromKey key with
      | error e => simp [hk, hp, hs]
      | ok signer => simp [hk, hp, hs]

/-- C7, at concrete inputs: with the key environment `oneKey` and password `pw` the list is
the public-key method of signer 7 followed by the password method. -/
theorem buildAuthMethods_cases_witness :
    loadedSigner oneKey "id_rsa" = some 7 ∧ ("pw" : String) ≠ "" ∧
    buildAuthMethods oneKey "id_rsa" "pw"
      = Except.ok [AuthMethod.publicKeys 7, AuthMethod.password "pw"] :=
  ⟨by decide, by decide,
    (buildAuthMethods_cases oneKey "id_rsa" "pw").1 7 (by decide) (by decide)⟩

/-! ## The remote operation executor -/

/-- C9. Once the session is opened, `writeRemoteFile` and `uploadFileToRemote` run the
base64 command first, run the heredoc command exactly when the base64 command fails (and
then as the second and last command), return an error exactly when both commands fail, and
never run more than two commands; `readRemoteFile` and `downloadFileFromRemote` run exactly
one command and fail exactly when it fails. -/
theorem executor_fallback_once (env : SessionEnv) (pid : Int) (remotePath content : String)
    (hs : env.newSession = Except.ok ()) :
    ((writeRemoteFile env pid remotePath content).1
        = (if failed (env.run 0 (writePrimaryCommand remotePath content))
            then [writePrimaryCommand remotePath content,
                  writeFallbackCommand remotePath content pid]
            else [writePrimaryCommand remotePath content])
      ∧ (failed (writeRemoteFile env pid remotePath content).2 = true
          ↔ failed (env.run 0 (writePrimaryCommand remotePath content)) = true
            ∧ failed (env.run 1 (writeFallbackCommand remotePath content pid)) = true)
      ∧ (writeRemoteFile env pid remotePath content).1.length ≤ 2)
    ∧ ((uploadFileToRemote env pid remotePath content).1
        = (if failed (env.run 0 (uploadPrimaryCommand remotePath content))
            then [uploadPrimaryCommand remotePath content,
                  uploadFallbackCommand remotePath content pid]
            else [uploadPrimaryCommand remotePath content])
      ∧ (failed (uploadFileToRemote env pid remotePath content).2 = true
          ↔ failed (env.run 0 (uploadPrimaryCommand remotePath content)) = true
            ∧ failed (env.run 1 (uploadFallbackCommand remotePath content pid)) = true)
      ∧ (uploadFileToRemote env pid remotePath content).1.length ≤ 2)
    ∧ ((readRemoteFile env remotePath).1 = [readCommand remotePath]
      ∧ (failed (readRemoteFile env remotePath).2 = true
          ↔ failed (env.run 0 (readCommand remotePath)) = true))
    ∧ ((downloadFileFromRemote env remotePath).1 = [downloadCommand remotePath]
      ∧ (failed (downloadFileFromRemote env remotePath).2 = true
          ↔ failed (env.run 0 (downloadCommand remotePath)) = true)) := by
  refine ⟨?_, ?_, ?_, ?_⟩
  · unfold writeRemoteFile
    rw [hs]
    cases h0 : env.run 0 (writePrimaryCommand remotePath content) with
    | ok out => simp [failed, h0]
    | error e =>
      cases h1 : env.run 1 (writeFallbackCommand remotePath content pid) with
      | ok out => simp [failed, h0, h1]
      | error e2 => simp [failed, h0, h1]
  · unfold uploadFileToRemote
    rw [hs]
    cases h0 : env.run 0 (uploadPrimaryCommand remotePath content) with
    | ok out => simp [failed, h0]
    | error e =>
      cases h1 : env.run 1 (uploadFallbackCommand remotePath content pid) with
      | ok out => simp [failed, h0, h1]
      | error e2 => simp [failed, h0, h1]
  · unfold readRemoteFile
    rw [hs]
    cases h0 : env.run 0 (readCommand remotePath) with
    | ok out => simp [failed, h0]
    | error e => simp [failed, h0]
  · unfold downloadFileFromRemote
    rw [hs]
    cases h0 : env.run 0 (downloadCommand remotePath) with
    | ok out => simp [failed, h0]
    | error e => simp [failed, h0]

/-- C9, at concrete inputs: on a session where every command fails, writing `hi` to `f` in
process 7 runs the base64 command and then the heredoc command, and fails. -/
theorem executor_fallback_once_witness :
    badSession.newSession = Except.ok ()
    ∧ (writeRemoteFile badSession 7 "f" "hi").1
        = ["echo 'aGk=' | base64 -d > f", "cat > f << 'PNANA_EOF_7'\nhi\nPNANA_EOF_7"]
    ∧ failed (writeRemoteFile badSession 7 "f" "hi").2 = true :=
  ⟨rfl, by
    have h := (executor_fallback_once badSession 7 "f" "hi" rfl).1.1
    rw [h]
    decide, by decide⟩

/-- C10, as stated, fails: for the path `f`, the empty content and process 7 the first
command of the upload is not the first command of the write, and neither is the second. -/
theorem upload_commands_differ :
    uploadPrimaryCommand "f" "" ≠ writePrimaryCommand "f" ""
    ∧ uploadFallbackCommand "f" "" 7 ≠ writeFallbackCommand "f" "" 7 := by
  decide

/-- C10, amended. The commands of `uploadFileToRemote` are the base64 pipeline and the
heredoc of the design document with the remote path wrapped in single quotes and the
delimiter `PNANA_UPLOAD_EOF_<pid>`; those of `writeRemoteFile` are the same two shapes with
the bare remote path and the delimiter `PNANA_EOF_<pid>`. The encoded content and the
escaped body are the same for the same content. -/
theorem upload_commands_shape (remotePath content : String) (pid : Int) :
    uploadPrimaryCommand remotePath content
        = base64PipeCommand ("'" ++ remotePath ++ "'") content
    ∧ writePrimaryCommand remotePath content = base64PipeCommand remotePath content
    ∧ uploadFallbackCommand remotePath content pid
        = heredocCommand ("'" ++ remotePath ++ "'") ("PNANA_UPLOAD_EOF_" ++ sprintfD pid)
            (escapeShellString content)
    ∧ writeFallbackCommand remotePath content pid
        = heredocCommand remotePath ("PNANA_EOF_" ++ sprintfD pid) (escapeShellString content)
    ∧ uploadPrimaryCommand remotePath content
        = writePrimaryCommand ("'" ++ remotePath ++ "'") content := by
  have e1 : ∀ x : String, "' | base64 -d > '" ++ x = "' | base64 -d > " ++ ("'" ++ x) := by
    intro x
    rw [← String.append_assoc]
    rfl
  have e2 : ∀ x : String, "cat > '" ++ x = "cat > " ++ ("'" ++ x) := by
    intro x
    rw [← String.append_assoc]
    rfl
  simp [uploadPrimaryCommand, writePrimaryCommand, base64PipeCommand, uploadFallbackCommand,
    writeFallbackCommand, heredocCommand, uploadDelimiter, writeDelimiter, String.append_assoc,
    e1, e2]

/-- C6, at the failing input: for the content `a$b`, path `f` and process 7, the heredoc
command of `writeRemoteFile` makes the shell write `a\$b` and a newline, which is not the
content. -/
theorem heredoc_fallback_alters_content :
    writeFallbackCommand "f" "a$b" 7 = "cat > f << 'PNANA_EOF_7'\na\\$b\nPNANA_EOF_7"
    ∧ heredocWritten (writeDelimiter 7) (writeFallbackCommand "f" "a$b" 7) = "a\\$b\n"
    ∧ heredocWritten (writeDelimiter 7) (writeFallbackCommand "f" "a$b" 7) ≠ "a$b"
    ∧ heredocWritten (writeDelimiter 7) (writeFallbackCommand "f" "plain" 7) = "plain\n" := by
  decide

/-! ## What the heredoc writes, for every content -/

theorem splitLinesAux_append (rest : List Char) : ∀ (t cur : List Char),
    splitLinesAux cur (t ++ '\n' :: rest) = splitLinesAux cur t ++ splitLinesAux [] rest := by
  intro t
  induction t with
  | nil => intro cur; simp [splitLinesAux]
  | cons c t ih =>
    intro cur
    by_cases hc : c = '\n'
    · simp [splitLinesAux, hc, ih]
    · simp [splitLinesAux, hc, ih]

theorem splitLinesAux_no_newline : ∀ (t cur : List Char), '\n' ∉ t →
    splitLinesAux cur t = [cur.reverse ++ t] := by
  intro t
  induction t with
  | nil => intro cur _; simp [splitLinesAux]
  | cons c t ih =>
    intro cur h
    have hc : c ≠ '\n' := fun e => h (e ▸ List.mem_cons_self _ _)
    have ht : '\n' ∉ t := fun e => h (List.mem_cons_of_mem _ e)
    simp [splitLinesAux, hc, ih _ ht]

theorem splitLinesAux_flatMap : ∀ (t cur : List Char),
    (splitLinesAux cur t).flatMap (fun l => l ++ ['\n']) = cur.reverse ++ t ++ ['\n'] := by
  intro t
  induction t with
  | nil => intro cur; simp [splitLinesAux]
  | cons c t ih =>
    intro cur
    by_cases hc : c = '\n'
    · simp [splitLinesAux, hc, ih]
    · simp [splitLinesAux, hc, ih]

theorem heredocBody_closed (delimiter : List Char) : ∀ (ls : List (List Char)),
    delimiter ∉ ls → heredocBody delimiter (ls ++ [delimiter]) = ls := by
  intro ls
  induction ls with
  | nil => intro _; simp [heredocBody]
  | cons l ls ih =>
    intro h
    have hl : l ≠ delimiter := fun e => h (e ▸ List.mem_cons_self _ _)
    have ht : delimiter ∉ ls := fun e => h (List.mem_cons_of_mem _ e)
    simp [heredocBody, hl, ih ht]

theorem writeDelimiter_no_newline (pid : Int) : '\n' ∉ (writeDelimiter pid).data := by
  intro h
  unfold writeDelimiter at h
  rw [String.data_append] at h
  rcases List.mem_append.1 h with h | h
  · exact absurd h (by decide)
  · cases pid with
    | ofNat m =>
      rw [sprintfD_data_ofNat] at h
      exact (toDigits_notSeparator m _ h).2.2 rfl
    | negSucc m =>
      rw [sprintfD_data_negSucc] at h
      rcases List.mem_cons.1 h with h | h
      · exact absurd h (by decide)
      · exact (toDigits_notSeparator _ _ h).2.2 rfl

/-- What the shell writes for the heredoc command of `writeRemoteFile`, for every content,
process and remote path without a newline, when no line of the escaped content is the
delimiter: the escaped content followed by a newline. -/
theorem heredocWritten_fallback (remotePath content : String) (pid : Int)
    (hpath : '\n' ∉ remotePath.data)
    (hdelim : (writeDelimiter pid).data ∉ splitLines (escapeShellString content).data) :
    heredocWritten (writeDelimiter pid) (writeFallbackCommand remotePath content pid)
      = escapeShellString content ++ "\n" := by
  have hd := writeDelimiter_no_newline pid
  have hcmd : (writeFallbackCommand remotePath content pid).data
      = ("cat > ".data ++ remotePath.data ++ " << '".data ++ (writeDelimiter pid).data ++ [Char.ofNat 39])
        ++ '\n' :: ((escapeShellString content).data ++ '\n' :: (writeDelimiter pid).data) := by
    simp [writeFallbackCommand, String.data_append]
  have hhead : '\n' ∉ "cat > ".data ++ remotePath.data ++ " << '".data
      ++ (writeDelimiter pid).data ++ [Char.ofNat 39] := by
    simp only [List.mem_append, not_or]
    exact ⟨⟨⟨⟨by decide, hpath⟩, by decide⟩, hd⟩, by decide⟩
  unfold splitLines at hdelim
  unfold heredocWritten splitLines
  rw [hcmd, splitLinesAux_append, splitLinesAux_no_newline _ _ hhead, splitLinesAux_append,
    splitLinesAux_no_newline _ _ hd]
  simp only [List.reverse_nil, List.nil_append, List.singleton_append]
  rw [heredocBody_closed _ _ hdelim, splitLinesAux_flatMap]
  apply String.ext
  simp [String.data_append]

theorem replaceAll_length (s : String) (old : Char) (new : String) (hnew : 1 ≤ new.length) :
    s.length ≤ (replaceAll s old new).length := by
  have h : ∀ l : List Char,
      l.length ≤ (l.flatMap (fun c => if c = old then new.data else [c])).length := by
    intro l
    induction l with
    | nil => simp
    | cons c t ih =>
      simp only [List.flatMap_cons, List.length_append, List.length_cons]
      by_cases hc : c = old
      · simp only [hc, if_true]
        have : 1 ≤ new.data.length := hnew
        omega
      · simp only [hc, if_false, List.length_cons, List.length_nil]
        omega
  exact h s.data

theorem escapeShellString_length (s : String) : s.length ≤ (escapeShellString s).length := by
  unfold escapeShellString
  have h1 := replaceAll_length s (Char.ofNat 92) "\\\\" (by decide)
  have h2 := replaceAll_length (replaceAll s (Char.ofNat 92) "\\\\") '$' "\\$" (by decide)
  have h3 := replaceAll_length (replaceAll (replaceAll s (Char.ofNat 92) "\\\\") '$' "\\$")
    (Char.ofNat 96) "\\\x60" (by decide)
  have h4 := replaceAll_length
    (replaceAll (replaceAll (replaceAll s (Char.ofNat 92) "\\\\") '$' "\\$")
      (Char.ofNat 96) "\\\x60") (Char.ofNat 34) "\\\x22" (by decide)
  exact Nat.le_trans h1 (Nat.le_trans h2 (Nat.le_trans h3 h4))

/-- For every content, process and remote path without a newline, when no line of the escaped
content is the delimiter, the bytes the heredoc command of `writeRemoteFile` writes are not
the content: they are at least one byte longer. -/
theorem heredocWritten_ne_content (remotePath content : String) (pid : Int)
    (hpath : '\n' ∉ remotePath.data)
    (hdelim : (writeDelimiter pid).data ∉ splitLines (escapeShellString content).data) :
    heredocWritten (writeDelimiter pid) (writeFallbackCommand remotePath content pid)
      ≠ content := by
  intro h
  rw [heredocWritten_fallback remotePath content pid hpath hdelim] at h
  have hlen := congrArg String.length h
  rw [String.length_append] at hlen
  have h1 : ("\n" : String).length = 1 := by decide
  have h2 := escapeShellString_length content
  omega

/-! ## The entry points -/

theorem getConnection_counted (p : connectionPool) (host : String) (port : Int)
    (user password keyPath : String) (env : DialEnv) (client : Client)
    (h : (getConnection p host port user password keyPath env).2 = Except.ok client) :
    acquireCounted p (getConnection p host port user password keyPath env).1
      (connectionKey host port user) env.probeOk client := by
  have hdial : ∀ q : connectionPool,
      (dialConnection q (connectionKey host port user) host port user password keyPath env).2
        = Except.ok client →
      ∃ conn, lookupConn (dialConnection q (connectionKey host port user) host port user
          password keyPath env).1.connections (connectionKey host port user) = some conn
        ∧ conn.client = some client ∧ conn.refCount = 1 := by
    intro q hq
    unfold dialConnection at hq ⊢
    cases ha : buildAuthMethods env.keys keyPath password with
    | error e => simp [ha] at hq
    | ok auth =>
      cases hd : env.dial (host ++ ":" ++ sprintfD port) user auth with
      | error e => simp [ha, hd] at hq
      | ok c =>
        simp only [ha, hd] at hq ⊢
        simp only [Except.ok.injEq] at hq
        exact ⟨_, by rw [lookupConn_storeConn, if_pos rfl], by rw [hq], rfl⟩
  unfold acquireCounted
  unfold getConnection at h ⊢
  cases hl : lookupConn p.connections (connectionKey host port user) with
  | none =>
    simp only [hl] at h ⊢
    exact hdial p h
  | some conn =>
    cases hc : conn.client with
    | none =>
      simp only [hl, hc] at h ⊢
      obtain ⟨c, h1, h2, h3⟩ := hdial p h
      exact ⟨c, h1, h2, by simp [h3]⟩
    | some cl =>
      by_cases hp : env.probeOk = true
      · simp only [hl, hc, hp, if_true] at h ⊢
        simp only [Except.ok.injEq] at h
        exact ⟨{ conn with refCount := wrapInt (conn.refCount + 1), lastUsed := env.now },
          by simp [lookupConn_storeConn, hc], by simp [hc, h], by simp⟩
      · simp only [hl, hc, hp] at h ⊢
        obtain ⟨c, h1, h2, h3⟩ := hdial _ h
        exact ⟨c, h1, h2, by simp [h3]⟩

theorem releaseConnection_undone (p : connectionPool) (host : String) (port : Int)
    (user : String) (now1 now2 : Int) (conn : sshConnection)
    (h : lookupConn p.connections (connectionKey host port user) = some conn) :
    refCountUndone p (releaseConnection p host port user now1 now2).1
      (connectionKey host port user) := by
  unfold refCountUndone releaseConnection
  simp only [h]
  split
  · rename_i hcond
    refine ⟨⟨conn, rfl, Or.inl ⟨?_, hcond.1⟩⟩, ?_, rfl, rfl⟩
    · rw [lookupConn_deleteConn, if_pos rfl]
    · intro other ho
      rw [lookupConn_deleteConn, if_neg ho]
  · refine ⟨⟨conn, rfl, Or.inr
      ⟨{ conn with refCount := wrapInt (conn.refCount - 1), lastUsed := now1 }, ?_,
        rfl, rfl⟩⟩, ?_, rfl, rfl⟩
    · rw [lookupConn_storeConn, if_pos rfl]
    · intro other ho
      rw [lookupConn_storeConn, if_neg ho]

theorem filter_isRelease_run (cmds : List String) :
    (cmds.map Event.run).filter isRelease = [] := by
  induction cmds with
  | nil => rfl
  | cons c rest ih => simp [List.filter, isRelease]

theorem getLast_append_one (b : Event) (l : List Event) :
    (l ++ [b]).getLast? = some b := by
  induction l with
  | nil => rfl
  | cons a rest ih =>
    cases rest with
    | nil => rfl
    | cons c r => simp [List.getLast?]

theorem getLast_cons_append_one (a b : Event) (l : List Event) :
    (a :: (l ++ [b])).getLast? = some b :=
  getLast_append_one b (a :: l)

theorem getLast_cons_append_two (a b c : Event) (l : List Event) :
    (a :: (l ++ [c, b])).getLast? = some b := by
  have h : a :: (l ++ [c, b]) = (a :: (l ++ [c])) ++ [b] := by simp
  exact h ▸ getLast_append_one b (a :: (l ++ [c]))

/-- C5. For each of `ConnectAndReadFile`, `ConnectAndWriteFile`, `UploadFile` and
`DownloadFile`, whatever the session, the remote commands and the local file access do: when
`getSSHConnection` succeeded, the calls made start with that acquire, contain exactly one
`releaseSSHConnection`, which is for the same host, port and user and is the last call before
the return. The acquire left the entry of the identity with the transport returned and a
`refCount` one above the count of the entry it reused (1 for a new connection); in the pool
the entry point leaves behind, that entry has its `refCount` taken down by one, or is
reclaimed with the count taken down by one at most 0, and every other entry and the
thresholds of the pool are as the acquire left them. -/
theorem entry_points_release_once (globalPool : Option connectionPool) (config : SSHConfig_C)
    (content localPath remotePath : String) (env : OpEnv) (client : Client)
    (hacq : (getSSHConnection globalPool (parseSSHConfig config).host
        (parseSSHConfig config).port (parseSSHConfig config).user
        (parseSSHConfig config).password (parseSSHConfig config).keyPath env.connect).2
          = Except.ok client) :
    (releasedOnce (parseSSHConfig config).host (parseSSHConfig config).port
          (parseSSHConfig config).user (ConnectAndReadFile globalPool config env).events
      ∧ releasedOnce (parseSSHConfig config).host (parseSSHConfig config).port
          (parseSSHConfig config).user
          (ConnectAndWriteFile globalPool config content env).events
      ∧ releasedOnce (parseSSHConfig config).host (parseSSHConfig config).port
          (parseSSHConfig config).user
          (UploadFile globalPool config localPath remotePath env).events
      ∧ releasedOnce (parseSSHConfig config).host (parseSSHConfig config).port
          (parseSSHConfig config).user
          (DownloadFile globalPool config remotePath localPath env).events)
    ∧ acquireCounted (initConnectionPool globalPool)
        (getSSHConnection globalPool (parseSSHConfig config).host
          (parseSSHConfig config).port (parseSSHConfig config).user
          (parseSSHConfig config).password (parseSSHConfig config).keyPath env.connect).1
        (connectionKey (parseSSHConfig config).host (parseSSHConfig config).port
          (parseSSHConfig config).user)
        env.connect.probeOk client
    ∧ (refCountUndone
          (getSSHConnection globalPool (parseSSHConfig config).host
            (parseSSHConfig config).port (parseSSHConfig config).user
            (parseSSHConfig config).password (parseSSHConfig config).keyPath env.connect).1
          (ConnectAndReadFile globalPool config env).pool
          (connectionKey (parseSSHConfig config).host (parseSSHConfig config).port
            (parseSSHConfig config).user)
      ∧ refCountUndone
          (getSSHConnection globalPool (parseSSHConfig config).host
            (parseSSHConfig config).port (parseSSHConfig config).user
            (parseSSHConfig config).password (parseSSHConfig config).keyPath env.connect).1
          (ConnectAndWriteFile globalPool config content env).pool
          (connectionKey (parseSSHConfig config).host (parseSSHConfig config).port
            (parseSSHConfig config).user)
      ∧ refCountUndone
          (getSSHConnection globalPool (parseSSHConfig config).host
            (parseSSHConfig config).port (parseSSHConfig config).user
            (parseSSHConfig config).password (parseSSHConfig config).keyPath env.connect).1
          (UploadFile globalPool config localPath remotePath env).pool
          (connectionKey (parseSSHConfig config).host (parseSSHConfig config).port
            (parseSSHConfig config).user)
      ∧ refCountUndone
          (getSSHConnection globalPool (parseSSHConfig config).host
            (parseSSHConfig config).port (parseSSHConfig config).user
            (parseSSHConfig config).password (parseSSHConfig config).keyPath env.connect).1
          (DownloadFile globalPool config remotePath localPath env).pool
          (connectionKey (parseSSHConfig config).host (parseSSHConfig config).port
            (parseSSHConfig config).user)) := by
  have hcount := getConnection_counted (initConnectionPool globalPool)
    (parseSSHConfig config).host (parseSSHConfig config).port (parseSSHConfig config).user
    (parseSSHConfig config).password (parseSSHConfig config).keyPath env.connect client hacq
  have hundone : refCountUndone
      (getSSHConnection globalPool (parseSSHConfig config).host
        (parseSSHConfig config).port (parseSSHConfig config).user
        (parseSSHConfig config).password (parseSSHConfig config).keyPath env.connect).1
      (releaseSSHConnection
        (some (getSSHConnection globalPool (parseSSHConfig config).host
          (parseSSHConfig config).port (parseSSHConfig config).user
          (parseSSHConfig config).password (parseSSHConfig config).keyPath env.connect).1)
        (parseSSHConfig config).host (parseSSHConfig config).port
        (parseSSHConfig config).user env.releaseNow1 env.releaseNow2).1
      (connectionKey (parseSSHConfig config).host (parseSSHConfig config).port
        (parseSSHConfig config).user) := by
    obtain ⟨conn, hl, _⟩ := hcount
    exact releaseConnection_undone _ _ _ _ _ _ conn hl
  refine ⟨⟨?_, ?_, ?_, ?_⟩, hcount, ?_, ?_, ?_, ?_⟩
  · unfold ConnectAndReadFile
    simp only [hacq]
    split <;>
      simp [releasedOnce, deferredRelease, List.filter_append, filter_isRelease_run,
        List.filter, isRelease, getLast_cons_append_one, getLast_cons_append_two]
  · unfold ConnectAndWriteFile
    simp only [hacq]
    split <;>
      simp [releasedOnce, deferredRelease, List.filter_append, filter_isRelease_run,
        List.filter, isRelease, getLast_cons_append_one, getLast_cons_append_two]
  · unfold UploadFile
    simp only [hacq]
    split
    · simp [releasedOnce, deferredRelease, List.filter_append, filter_isRelease_run,
        List.filter, isRelease, getLast_cons_append_one, getLast_cons_append_two]
    · split <;>
        simp [releasedOnce, deferredRelease, List.filter_append, filter_isRelease_run,
          List.filter, isRelease, getLast_cons_append_one, getLast_cons_append_two]
  · unfold DownloadFile
    simp only [hacq]
    split
    · simp [releasedOnce, deferredRelease, List.filter_append, filter_isRelease_run,
        List.filter, isRelease, getLast_cons_append_one, getLast_cons_append_two]
    · split <;>
        simp [releasedOnce, deferredRelease, List.filter_append, filter_isRelease_run,
          List.filter, isRelease, getLast_cons_append_one, getLast_cons_append_two]
  · have hpool : (ConnectAndReadFile globalPool config env).pool
        = (releaseSSHConnection
          (some (getSSHConnection globalPool (parseSSHConfig config).host
            (parseSSHConfig config).port (parseSSHConfig config).user
            (parseSSHConfig config).password (parseSSHConfig config).keyPath env.connect).1)
          (parseSSHConfig config).host (parseSSHConfig config).port
          (parseSSHConfig config).user env.releaseNow1 env.releaseNow2).1 := by
      unfold ConnectAndReadFile
      simp only [hacq]
      split <;> simp [deferredRelease]
    rw [hpool]
    exact hundone
  · have hpool : (ConnectAndWriteFile globalPool config content env).pool
        = (releaseSSHConnection
          (some (getSSHConnection globalPool (parseSSHConfig config).host
            (parseSSHConfig config).port (parseSSHConfig config).user
            (parseSSHConfig config).password (parseSSHConfig config).keyPath env.connect).1)
          (parseSSHConfig config).host (parseSSHConfig config).port
          (parseSSHConfig config).user env.releaseNow1 env.releaseNow2).1 := by
      unfold ConnectAndWriteFile
      simp only [hacq]
      split <;> simp [deferredRelease]
    rw [hpool]
    exact hundone
  · have hpool : (UploadFile globalPool config localPath remotePath env).pool
        = (releaseSSHConnection
          (some (getSSHConnection globalPool (parseSSHConfig config).host
            (parseSSHConfig config).port (parseSSHConfig config).user
            (parseSSHConfig config).password (parseSSHConfig config).keyPath env.connect).1)
          (parseSSHConfig config).host (parseSSHConfig config).port
          (parseSSHConfig config).user env.releaseNow1 env.releaseNow2).1 := by
      unfold UploadFile
      simp only [hacq]
      split
      · simp [deferredRelease]
      · split <;> simp [deferredRelease]
    rw [hpool]
    exact hundone
  · have hpool : (DownloadFile globalPool config remotePath localPath env).pool
        = (releaseSSHConnection
          (some (getSSHConnection globalPool (parseSSHConfig config).host
            (parseSSHConfig config).port (parseSSHConfig config).user
            (parseSSHConfig config).password (parseSSHConfig config).keyPath env.connect).1)
          (parseSSHConfig config).host (parseSSHConfig config).port
          (parseSSHConfig config).user env.releaseNow1 env.releaseNow2).1 := by
      unfold DownloadFile
      simp only [hacq]
      split
      · simp [deferredRelease]
      · split <;> simp [deferredRelease]
    rw [hpool]
    exact hundone

/-- C5, at concrete inputs: host `h`, user `u`, no port given (so port 22). On the empty
global pool, with a dial that succeeds and remote commands and local files that all fail,
each entry point ends with the release and leaves the entry with `refCount` 0. On a pool
where the identity already has three references and another identity one, the acquire makes
the count 4 and every entry point leaves it at 3, the other entry untouched. -/
theorem entry_points_release_once_witness :
    (getSSHConnection none "h" 22 "u" "pw" "" failingOpEnv.connect).2 = Except.ok 1
    ∧ releasedOnce "h" 22 "u" (ConnectAndReadFile none sampleConfig failingOpEnv).events
    ∧ refCountUndone (getSSHConnection (some busyPool) "h" 22 "u" "pw" "" reusingOpEnv.connect).1
        (DownloadFile (some busyPool) sampleConfig "r" "l" reusingOpEnv).pool "h:22:u"
    ∧ (ConnectAndReadFile none sampleConfig failingOpEnv).events
        = [Event.acquire "h" 22 "u", Event.run "cat /tmp/f", Event.release "h" 22 "u"]
    ∧ (UploadFile none sampleConfig "l" "r" failingOpEnv).events
        = [Event.acquire "h" 22 "u", Event.readLocal "l", Event.release "h" 22 "u"]
    ∧ (ConnectAndReadFile none sampleConfig failingOpEnv).pool.connections
        = [("h:22:u", { client := some 1, lastUsed := 5, refCount := 0 })]
    ∧ (getSSHConnection (some busyPool) "h" 22 "u" "pw" "" reusingOpEnv.connect).1.connections
        = [("h:22:u", { client := some 1, lastUsed := 100, refCount := 4 }),
           ("other:22:u", { client := some 2, lastUsed := 60, refCount := 1 })]
    ∧ (DownloadFile (some busyPool) sampleConfig "r" "l" reusingOpEnv).pool.connections
        = [("h:22:u", { client := some 1, lastUsed := 105, refCount := 3 }),
           ("other:22:u", { client := some 2, lastUsed := 60, refCount := 1 })]
    ∧ (ConnectAndWriteFile (some busyPool) sampleConfig "c" reusingOpEnv).pool.connections
        = [("h:22:u", { client := some 1, lastUsed := 105, refCount := 3 }),
           ("other:22:u", { client := some 2, lastUsed := 60, refCount := 1 })] :=
  ⟨rfl,
    (entry_points_release_once none sampleConfig "c" "l" "r" failingOpEnv 1 rfl).1.1,
    (entry_points_release_once (some busyPool) sampleConfig "c" "l" "r" reusingOpEnv 1
      rfl).2.2.2.2.2,
    by decide, by decide, by decide, by decide, by decide, by decide⟩

/-! ## The sweep -/

/-- C8. A sweep run at time `now` on a pool with distinct keys, whose `maxIdleTime` is a
duration below the largest one: an entry with `refCount <= 0` and
`now - lastUsed > maxIdleTime` is removed; every other entry stays with its client, refCount
and lastUsed unchanged, in particular every entry with `refCount > 0`; no entry appears; the
transports closed are those of the entries removed; the thresholds of the pool are kept. In
the scenario of the design document (two acquires, two releases, clock advanced past
`maxIdleTime`) the sweep removes the entry and the next acquire finds none and dials. -/
theorem cleanupIdleConnections_exact (p : connectionPool) (now : Int)
    (hkeys : (p.connections.map Prod.fst).Nodup)
    (hlo : minDuration ≤ p.maxIdleTime) (hhi : p.maxIdleTime < maxDuration) :
    (∀ key conn, lookupConn p.connections key = some conn →
        conn.refCount ≤ 0 → p.maxIdleTime < now - conn.lastUsed →
        lookupConn (cleanupIdleConnections p now).1.connections key = none)
    ∧ (∀ key conn, lookupConn p.connections key = some conn →
        ¬ (conn.refCount ≤ 0 ∧ p.maxIdleTime < now - conn.lastUsed) →
        lookupConn (cleanupIdleConnections p now).1.connections key = some conn)
    ∧ (∀ key conn, lookupConn p.connections key = some conn → 0 < conn.refCount →
        lookupConn (cleanupIdleConnections p now).1.connections key = some conn)
    ∧ (∀ key, lookupConn p.connections key = none →
        lookupConn (cleanupIdleConnections p now).1.connections key = none)
    ∧ (∀ c, c ∈ (cleanupIdleConnections p now).2 ↔
        ∃ key conn, lookupConn p.connections key = some conn ∧ conn.client = some c
          ∧ conn.refCount ≤ 0 ∧ p.maxIdleTime < now - conn.lastUsed)
    ∧ (cleanupIdleConnections p now).1.maxIdleTime = p.maxIdleTime
    ∧ (cleanupIdleConnections p now).1.cleanupInterval = p.cleanupInterval
    ∧ (scenarioFirst.2 = Except.ok 1 ∧ refCountOf scenarioFirst.1 scenarioKey = 1
      ∧ scenarioSecond.2 = Except.ok 1 ∧ refCountOf scenarioSecond.1 scenarioKey = 2
      ∧ refCountOf scenarioRelease1.1 scenarioKey = 1
      ∧ lookupConn scenarioRelease2.1.connections scenarioKey
          = some { client := some 1, lastUsed := 3, refCount := 0 }
      ∧ scenarioSweep.1.connections = [] ∧ scenarioSweep.2 = [1]
      ∧ lookupConn scenarioSweep.1.connections scenarioKey = none
      ∧ scenarioThird.2 = Except.ok 2
      ∧ lookupConn scenarioThird.1.connections scenarioKey
          = some { client := some 2, lastUsed := 3 + 10 * minute + 2, refCount := 1 }) := by
  have hexp : ∀ conn : sshConnection, idleExpired p.maxIdleTime now conn = true ↔
      (conn.refCount ≤ 0 ∧ p.maxIdleTime < now - conn.lastUsed) := by
    intro conn
    simp only [idleExpired, Bool.and_eq_true, decide_eq_true_eq]
    rw [timeSub_gt_iff _ _ _ hlo hhi]
  have hlook : ∀ key, lookupConn (cleanupIdleConnections p now).1.connections key =
      if (∃ e ∈ p.connections, e.1 = key ∧ idleExpired p.maxIdleTime now e.2 = true) then none
      else lookupConn p.connections key := by
    intro key
    exact cleanup_foldl_lookup p.maxIdleTime now key p.connections p.connections []
  refine ⟨?_, ?_, ?_, ?_, ?_, rfl, rfl, ?_⟩
  · intro key conn hl hr hi
    rw [hlook key, if_pos]
    exact ⟨(key, conn), (lookupConn_eq_some_iff _ hkeys key conn).1 hl, rfl,
      (hexp conn).2 ⟨hr, hi⟩⟩
  · intro key conn hl hn
    rw [hlook key, if_neg, hl]
    rintro ⟨e, he, hk, hx⟩
    have hmem : (key, e.2) ∈ p.connections := by
      rw [← hk]; exact he
    have h2 := (lookupConn_eq_some_iff _ hkeys key e.2).2 hmem
    rw [hl] at h2
    simp only [Option.some.injEq] at h2
    rw [← h2] at hx
    exact hn ((hexp conn).1 hx)
  · intro key conn hl hpos
    rw [hlook key, if_neg, hl]
    rintro ⟨e, he, hk, hx⟩
    have hmem : (key, e.2) ∈ p.connections := by
      rw [← hk]; exact he
    have h2 := (lookupConn_eq_some_iff _ hkeys key e.2).2 hmem
    rw [hl] at h2
    simp only [Option.some.injEq] at h2
    rw [← h2] at hx
    have := ((hexp conn).1 hx).1
    omega
  · intro key hl
    rw [hlook key, hl]
    simp
  · intro c
    have hclosed : (cleanupIdleConnections p now).2 =
        (p.connections.filter (fun e => idleExpired p.maxIdleTime now e.2)).flatMap
          (fun e => e.2.client.toList) := by
      have := cleanup_foldl_closed p.maxIdleTime now p.connections p.connections []
      simpa [cleanupIdleConnections] using this
    rw [hclosed]
    simp only [List.mem_flatMap, List.mem_filter, Option.mem_toList, Option.mem_def]
    constructor
    · rintro ⟨e, ⟨he, hx⟩, hc⟩
      refine ⟨e.1, e.2, (lookupConn_eq_some_iff _ hkeys e.1 e.2).2 he, hc, (hexp e.2).1 hx⟩
    · rintro ⟨key, conn, hl, hc, hx⟩
      exact ⟨(key, conn), ⟨(lookupConn_eq_some_iff _ hkeys key conn).1 hl, (hexp conn).2 hx⟩, hc⟩
  · decide

/-- C8, at concrete inputs: the pool after the two releases of the scenario has distinct
keys and the thresholds of `initConnectionPool`; its entry, idle with no reference, is
removed by the sweep. -/
theorem cleanupIdleConnections_exact_witness :
    (scenarioRelease2.1.connections.map Prod.fst).Nodup
    ∧ minDuration ≤ scenarioRelease2.1.maxIdleTime
    ∧ scenarioRelease2.1.maxIdleTime < maxDuration
    ∧ lookupConn (cleanupIdleConnections scenarioRelease2.1 (3 + 10 * minute + 1)).1.connections
        scenarioKey = none :=
  ⟨by decide, by decide, by decide,
    (cleanupIdleConnections_exact scenarioRelease2.1 (3 + 10 * minute + 1)
      (by decide) (by decide) (by decide)).1 scenarioKey
      { client := some 1, lastUsed := 3, refCount := 0 } (by decide) (by decide) (by decide)⟩

/-! ## Pools reached by the code have distinct keys and keep their thresholds -/

theorem nodup_keys_deleteConn (m : List (String × sshConnection)) (k : String)
    (h : (m.map Prod.fst).Nodup) : ((deleteConn m k).map Prod.fst).Nodup :=
  List.Nodup.sublist (List.Sublist.map _ (List.filter_sublist _)) h

theorem nodup_keys_storeConn (m : List (String × sshConnection)) (k : String)
    (c : sshConnection) (h : (m.map Prod.fst).Nodup) :
    ((storeConn m k c).map Prod.fst).Nodup := by
  unfold storeConn
  rw [List.map_cons, List.nodup_cons]
  refine ⟨?_, nodup_keys_deleteConn m k h⟩
  intro hmem
  obtain ⟨e, he, hk⟩ := List.mem_map.1 hmem
  have := (List.mem_filter.1 he).2
  simp only [ne_eq, decide_eq_true_eq] at this
  exact this hk

theorem nodup_keys_cleanup (maxIdle now : Int) :
    ∀ (todo acc : List (String × sshConnection)) (closed : List Client),
      (acc.map Prod.fst).Nodup →
      (((todo.foldl (cleanupStep maxIdle now) (acc, closed)).1).map Prod.fst).Nodup := by
  intro todo
  induction todo with
  | nil => intro acc closed h; simpa using h
  | cons a rest ih =>
    intro acc closed h
    simp only [List.foldl_cons]
    by_cases hx : idleExpired maxIdle now a.2 = true
    · simp only [cleanupStep, hx, if_true]
      exact ih _ _ (nodup_keys_deleteConn _ _ h)
    · have hstep : cleanupStep maxIdle now (acc, closed) a = (acc, closed) := by
        simp [cleanupStep, hx]
      rw [hstep]
      exact ih _ _ h

theorem dialConnection_keys (p : connectionPool) (key host : String) (port : Int)
    (user password keyPath : String) (env : DialEnv)
    (h : (p.connections.map Prod.fst).Nodup) :
    (((dialConnection p key host port user password keyPath env).1.connections).map
        Prod.fst).Nodup
    ∧ (dialConnection p key host port user password keyPath env).1.maxIdleTime
        = p.maxIdleTime := by
  unfold dialConnection
  cases ha : buildAuthMethods env.keys keyPath password with
  | error e => exact ⟨h, rfl⟩
  | ok auth =>
    dsimp only
    cases hd : env.dial (host ++ ":" ++ sprintfD port) user auth with
    | error e => exact ⟨h, rfl⟩
    | ok c => exact ⟨nodup_keys_storeConn _ _ _ h, rfl⟩

/-- Every call keeps the keys of the map distinct and leaves `maxIdleTime` as it is. -/
theorem applyCall_keys (p : connectionPool) (c : PoolCall)
    (h : (p.connections.map Prod.fst).Nodup) :
    ((applyCall p c).connections.map Prod.fst).Nodup
    ∧ (applyCall p c).maxIdleTime = p.maxIdleTime := by
  cases c with
  | acquire host port user password keyPath env =>
    simp only [applyCall]
    unfold getConnection
    cases hl : lookupConn p.connections (connectionKey host port user) with
    | none =>
      simp only [hl]
      exact dialConnection_keys _ _ _ _ _ _ _ _ h
    | some conn =>
      cases hcl : conn.client with
      | none =>
        simp only [hl, hcl]
        exact dialConnection_keys _ _ _ _ _ _ _ _ h
      | some cl =>
        by_cases hp : env.probeOk = true
        · simp only [hl, hcl, hp, if_true]
          exact ⟨nodup_keys_storeConn _ _ _ h, trivial⟩
        · simp only [hl, hcl, hp]
          exact dialConnection_keys
            { p with connections := deleteConn p.connections (connectionKey host port user) }
            _ _ _ _ _ _ _ (nodup_keys_deleteConn _ _ h)
  | release host port user now1 now2 =>
    simp only [applyCall]
    unfold releaseConnection
    cases hl : lookupConn p.connections (connectionKey host port user) with
    | none =>
      simp only [hl]
      exact ⟨h, trivial⟩
    | some conn =>
      simp only [hl]
      split
      · exact ⟨nodup_keys_deleteConn _ _ h, rfl⟩
      · exact ⟨nodup_keys_storeConn _ _ _ h, rfl⟩
  | sweep now =>
    simp only [applyCall, cleanupIdleConnections]
    exact ⟨nodup_keys_cleanup _ _ _ _ _ h, trivial⟩

/-- Every pool reached from the pool of `initConnectionPool` by calls of the code has
distinct keys and a `maxIdleTime` of ten minutes, a duration below the largest one. -/
theorem runCalls_newPool_keys (calls : List PoolCall) :
    ((runCalls newPool calls).connections.map Prod.fst).Nodup
    ∧ minDuration ≤ (runCalls newPool calls).maxIdleTime
    ∧ (runCalls newPool calls).maxIdleTime < maxDuration := by
  have hgen : ∀ (cs : List PoolCall) (p : connectionPool),
      (p.connections.map Prod.fst).Nodup →
      ((runCalls p cs).connections.map Prod.fst).Nodup
      ∧ (runCalls p cs).maxIdleTime = p.maxIdleTime := by
    intro cs
    induction cs with
    | nil => intro p h; exact ⟨h, rfl⟩
    | cons c rest ih =>
      intro p h
      have h1 := applyCall_keys p c h
      have h2 := ih (applyCall p c) h1.1
      exact ⟨by simpa [runCalls] using h2.1, by
        have := h2.2
        simp only [runCalls, List.foldl_cons] at this ⊢
        rw [this, h1.2]⟩
  have h := hgen calls newPool (by simp [newPool])
  rw [h.2]
  exact ⟨h.1, by decide, by decide⟩

/-! ## Release-time reclamation -/

/-- The entry of a released identity is kept, and no transport is closed, whenever the two
clock readings of `releaseConnection` are no more than `maxIdleTime` apart, however long the
entry had been idle before the call. -/
theorem releaseConnection_keeps_entry (p : connectionPool) (host : String) (port : Int)
    (user : String) (now1 now2 : Int) (conn : sshConnection)
    (hl : lookupConn p.connections (connectionKey host port user) = some conn)
    (hclock : timeSub now2 now1 ≤ p.maxIdleTime) :
    (releaseConnection p host port user now1 now2).2 = []
    ∧ lookupConn (releaseConnection p host port user now1 now2).1.connections
        (connectionKey host port user)
      = some { conn with refCount := wrapInt (conn.refCount - 1), lastUsed := now1 } := by
  unfold releaseConnection
  simp only [hl]
  rw [if_neg (by intro h; omega)]
  exact ⟨rfl, by rw [lookupConn_storeConn, if_pos rfl]⟩

/-- C3, at the failing input: the entry of `("h", 22, "u")` was last used at time 0 and has
one reference; it is released 11 minutes later, with `maxIdleTime` at 10 minutes. The call
leaves `refCount` 0, closes no transport and keeps the entry, its `lastUsed` moved to the
time of the call. -/
theorem release_does_not_reclaim :
    lookupConn idlePool.connections (connectionKey "h" 22 "u")
        = some { client := some 1, lastUsed := 0, refCount := 1 }
    ∧ idlePool.maxIdleTime < 11 * minute - 0
    ∧ (releaseConnection idlePool "h" 22 "u" (11 * minute) (11 * minute)).2 = []
    ∧ lookupConn (releaseConnection idlePool "h" 22 "u" (11 * minute) (11 * minute)).1.connections
        (connectionKey "h" 22 "u")
      = some { client := some 1, lastUsed := 11 * minute, refCount := 0 } := by
  decide

/-! ## The reference count along sequences of calls -/

theorem wrapInt_eq (x : Int) (hlo : -9223372036854775808 ≤ x) (hhi : x < 9223372036854775808) :
    wrapInt x = x := by
  unfold wrapInt
  omega

theorem mem_deleteConn (m : List (String × sshConnection)) (k : String)
    (e : String × sshConnection) (h : e ∈ deleteConn m k) : e ∈ m :=
  (List.mem_filter.1 h).1

theorem lookupConn_mem (m : List (String × sshConnection)) (key : String) (c : sshConnection)
    (h : lookupConn m key = some c) : (key, c) ∈ m := by
  induction m with
  | nil => simp [lookupConn] at h
  | cons a rest ih =>
    by_cases ha : a.1 = key
    · simp only [lookupConn, ha, if_true, Option.some.injEq] at h
      have : a = (key, c) := by
        cases a
        simp only at ha h
        rw [ha, h]
      rw [this]
      exact List.mem_cons_self _ _
    · simp only [lookupConn, ha, if_false] at h
      exact List.mem_cons_of_mem _ (ih h)

theorem cleanup_foldl_subset (maxIdle now : Int) :
    ∀ (todo acc : List (String × sshConnection)) (closed : List Client),
      ∀ e ∈ (todo.foldl (cleanupStep maxIdle now) (acc, closed)).1, e ∈ acc := by
  intro todo
  induction todo with
  | nil => intro acc closed e he; simpa using he
  | cons a rest ih =>
    intro acc closed e he
    simp only [List.foldl_cons] at he
    by_cases hx : idleExpired maxIdle now a.2 = true
    · simp only [cleanupStep, hx, if_true] at he
      exact mem_deleteConn _ _ _ (ih _ _ e he)
    · have hstep : cleanupStep maxIdle now (acc, closed) a = (acc, closed) := by
        simp [cleanupStep, hx]
      rw [hstep] at he
      exact ih _ _ e he

theorem refCountsWithin_mono (b c : Int) (p : connectionPool) (h : refCountsWithin b p)
    (hbc : b ≤ c) : refCountsWithin c p := by
  intro e he
  have := h e he
  exact ⟨this.1, by omega⟩

theorem dialConnection_within (bound : Int) (p : connectionPool) (key host : String)
    (port : Int) (user password keyPath : String) (env : DialEnv) (hb : 0 ≤ bound)
    (h : refCountsWithin bound p) :
    refCountsWithin (bound + 1)
      (dialConnection p key host port user password keyPath env).1 := by
  unfold dialConnection
  cases ha : buildAuthMethods env.keys keyPath password with
  | error e =>
    simp only []
    exact refCountsWithin_mono _ _ _ h (by omega)
  | ok auth =>
    cases hd : env.dial (host ++ ":" ++ sprintfD port) user auth with
    | error e =>
      simp only [hd]
      exact refCountsWithin_mono _ _ _ h (by omega)
    | ok c =>
      simp only [hd]
      intro e he
      simp only [storeConn] at he
      rcases List.mem_cons.1 he with rfl | he
      · simp only
        omega
      · have := h e (mem_deleteConn _ _ _ he)
        exact ⟨this.1, by omega⟩

theorem applyCall_within (bound : Int) (p : connectionPool) (c : PoolCall) (hb : 0 ≤ bound)
    (hbound : bound + 1 < 9223372036854775808) (h : refCountsWithin bound p)
    (hc : callCovered p c = true) : refCountsWithin (bound + 1) (applyCall p c) := by
  cases c with
  | acquire host port user password keyPath env =>
    simp only [applyCall]
    unfold getConnection
    cases hl : lookupConn p.connections (connectionKey host port user) with
    | none =>
      simp only [hl]
      exact dialConnection_within _ _ _ _ _ _ _ _ _ hb h
    | some conn =>
      have hconn := h _ (lookupConn_mem _ _ _ hl)
      cases hcl : conn.client with
      | none =>
        simp only [hl, hcl]
        exact dialConnection_within _ _ _ _ _ _ _ _ _ hb h
      | some cl =>
        by_cases hp : env.probeOk = true
        · simp only [hl, hcl, hp, if_true]
          intro e he
          simp only [storeConn] at he
          rcases List.mem_cons.1 he with rfl | he
          · simp only at hconn ⊢
            rw [wrapInt_eq _ (by omega) (by omega)]
            omega
          · have := h e (mem_deleteConn _ _ _ he)
            exact ⟨this.1, by omega⟩
        · simp only [hl, hcl, hp]
          apply dialConnection_within _ _ _ _ _ _ _ _ _ hb
          intro e he
          exact h e (mem_deleteConn _ _ _ he)
  | release host port user now1 now2 =>
    simp only [applyCall]
    unfold releaseConnection
    cases hl : lookupConn p.connections (connectionKey host port user) with
    | none =>
      simp only [hl]
      exact refCountsWithin_mono _ _ _ h (by omega)
    | some conn =>
      have hconn := h _ (lookupConn_mem _ _ _ hl)
      simp only [callCovered, hl, decide_eq_true_eq] at hc
      simp only [hl]
      split
      · intro e he
        have := h e (mem_deleteConn _ _ _ he)
        exact ⟨this.1, by omega⟩
      · intro e he
        simp only [storeConn] at he
        rcases List.mem_cons.1 he with rfl | he
        · simp only at hconn ⊢
          rw [wrapInt_eq _ (by omega) (by omega)]
          omega
        · have := h e (mem_deleteConn _ _ _ he)
          exact ⟨this.1, by omega⟩
  | sweep now =>
    simp only [applyCall, cleanupIdleConnections]
    intro e he
    have := h e (cleanup_foldl_subset _ _ _ _ _ e he)
    exact ⟨this.1, by omega⟩

theorem runCalls_within : ∀ (calls : List PoolCall) (bound : Int) (p : connectionPool),
    0 ≤ bound → bound + calls.length < 9223372036854775808 → refCountsWithin bound p →
    callsCovered p calls = true → ∀ n, refCountsNonneg (runCalls p (calls.take n)) := by
  intro calls
  induction calls with
  | nil =>
    intro bound p _ _ h _ n e he
    simp only [List.take_nil, runCalls, List.foldl_nil] at he
    exact (h e he).1
  | cons c rest ih =>
    intro bound p hb hlen h hcov n
    cases n with
    | zero =>
      intro e he
      simp only [List.take_zero, runCalls, List.foldl_nil] at he
      exact (h e he).1
    | succ n =>
      simp only [callsCovered, Bool.and_eq_true] at hcov
      simp only [List.length_cons, Nat.cast_add, Nat.cast_one] at hlen
      have hstep := applyCall_within bound p c hb (by omega) h hcov.1
      have := ih (bound + 1) (applyCall p c) (by omega) (by omega) hstep hcov.2 n
      simpa [runCalls, List.take_succ_cons] using this

/-- C1, as stated, fails: from the new pool, an acquire for `("h", 22, "u")` followed by two
releases, the second with no matching acquire, leaves the entry in the pool with
`refCount` -1. -/
theorem unbalanced_release_goes_negative :
    lookupConn (runCalls newPool
        [PoolCall.acquire "h" 22 "u" "pw" "" (dialEnv true 1 0),
         PoolCall.release "h" 22 "u" 1 1,
         PoolCall.release "h" 22 "u" 2 2]).connections (connectionKey "h" 22 "u")
      = some { client := some 1, lastUsed := 2, refCount := -1 } := by
  decide

/-- C1, amended. From a pool whose refCounts all lie between 0 and `bound`, along every
sequence of acquire, release and sweep calls that stays below the range of the counter and in
which no release is made for an identity whose entry has `refCount <= 0` at that call, the
`refCount` of every entry in the pool is at least 0 after every call. -/
theorem refCount_nonneg_when_covered (p : connectionPool) (calls : List PoolCall)
    (bound : Int) (hb : 0 ≤ bound) (hlen : bound + calls.length < 9223372036854775808)
    (hp : refCountsWithin bound p) (hcov : callsCovered p calls = true) :
    ∀ n, refCountsNonneg (runCalls p (calls.take n)) :=
  runCalls_within calls bound p hb hlen hp hcov

theorem refCountsWithin_newPool (bound : Int) : refCountsWithin bound newPool := by
  intro e he
  simp [newPool] at he

/-- C1, at concrete inputs: the new pool, an acquire and its release. -/
theorem refCount_nonneg_when_covered_witness :
    (0 : Int) ≤ 0 ∧ (0 : Int) + pairedCalls.length < 9223372036854775808
    ∧ refCountsWithin 0 newPool ∧ callsCovered newPool pairedCalls = true
    ∧ refCountsNonneg (runCalls newPool (pairedCalls.take 2)) :=
  ⟨by decide, by decide, refCountsWithin_newPool 0, by decide,
    refCount_nonneg_when_covered newPool pairedCalls 0 (by decide) (by decide)
      (refCountsWithin_newPool 0) (by decide) 2⟩

/-! ## The reference count of one identity -/

theorem deleteConn_single (key : String) (conn : sshConnection) :
    deleteConn [(key, conn)] key = [] := by
  simp [deleteConn]

theorem lookupConn_single (key : String) (conn : sshConnection) :
    lookupConn [(key, conn)] key = some conn := by
  simp [lookupConn]

theorem dialConnection_shape (q : connectionPool) (key host : String) (port : Int)
    (user password keyPath : String) (env : DialEnv) (hq : deleteConn q.connections key = []) :
    ((dialConnection q key host port user password keyPath env).1 = q
      ∧ ∃ e, (dialConnection q key host port user password keyPath env).2 = Except.error e)
    ∨ ∃ c, (dialConnection q key host port user password keyPath env).2 = Except.ok c
        ∧ (dialConnection q key host port user password keyPath env).1.connections
            = [(key, { client := some c, lastUsed := env.now, refCount := 1 })] := by
  unfold dialConnection
  cases ha : buildAuthMethods env.keys keyPath password with
  | error e =>
    dsimp only
    exact Or.inl ⟨rfl, e, rfl⟩
  | ok auth =>
    dsimp only
    cases hd2 : env.dial (host ++ ":" ++ sprintfD port) user auth with
    | error e =>
      dsimp only
      exact Or.inl ⟨rfl, e, rfl⟩
    | ok c =>
      dsimp only
      exact Or.inr ⟨c, rfl, by simp [storeConn, hq]⟩

theorem trackStep_inv (host : String) (port : Int) (user : String) (s : Tracked)
    (st : IdentityStep) (k : Int) (hk : (s.held.length : Int) ≤ k)
    (hbound : k + 1 < 9223372036854775808)
    (hinv : trackedInv (connectionKey host port user) s)
    (hm : (match st with
      | IdentityStep.release _ _ => !s.held.isEmpty
      | _ => true) = true)
    (hp : probeFails host port user s st = false) :
    trackedInv (connectionKey host port user) (trackStep host port user s st)
    ∧ ((trackStep host port user s st).held.length : Int) ≤ k + 1 := by
  obtain ⟨pool, held⟩ := s
  obtain ⟨conns, maxIdle, interval⟩ := pool
  simp only at hk
  cases st with
  | acquire password keyPath env =>
    rcases hinv with ⟨hc, hh⟩ | ⟨conn, cl, hc, hcl, hrc, hall⟩
    · simp only at hc hh
      subst hc hh
      have hshape := dialConnection_shape
        { connections := [], maxIdleTime := maxIdle, cleanupInterval := interval }
        (connectionKey host port user) host port user password keyPath env (by simp [deleteConn])
      simp only [trackStep, getConnection, lookupConn]
      rcases hshape with ⟨h1, e, h2⟩ | ⟨c, h2, h1⟩
      · rw [h2, h1]
        exact ⟨Or.inl ⟨rfl, rfl⟩, by simp; omega⟩
      · rw [h2]
        refine ⟨Or.inr ⟨{ client := some c, lastUsed := env.now, refCount := 1 }, c, h1, rfl,
          by simp, by simp⟩, by simp; omega⟩
    · simp only at hc hrc hall
      subst hc
      have hprobe : env.probeOk = true := by
        simp only [probeFails, lookupConn_single, hcl, Option.isSome_some, Bool.true_and,
          Bool.not_eq_false'] at hp
        exact hp
      simp only [trackStep, getConnection, lookupConn_single, hcl, hprobe, if_true]
      refine ⟨Or.inr ⟨{ conn with refCount := wrapInt (conn.refCount + 1), lastUsed := env.now },
        cl, by simp [storeConn, deleteConn_single, hcl], hcl, ?_, ?_⟩, ?_⟩
      · simp only [List.length_cons, Nat.cast_add, Nat.cast_one]
        rw [wrapInt_eq _ (by omega) (by omega), hrc]
      · intro a ha
        rcases List.mem_cons.1 ha with rfl | ha
        · rfl
        · exact hall a ha
      · simp only [List.length_cons, Nat.cast_add, Nat.cast_one]
        omega
  | release now1 now2 =>
    rcases hinv with ⟨hc, hh⟩ | ⟨conn, cl, hc, hcl, hrc, hall⟩
    · simp only at hh
      subst hh
      simp at hm
    · simp only at hc hrc hall
      subst hc
      cases held with
      | nil => simp at hm
      | cons a t =>
        simp only [List.length_cons, Nat.cast_add, Nat.cast_one] at hrc hk
        have hw : wrapInt (conn.refCount - 1) = (t.length : Int) := by
          rw [wrapInt_eq _ (by omega) (by omega)]
          omega
        simp only [trackStep, releaseConnection, lookupConn_single, List.tail_cons, hw]
        split
        · rename_i hcond
          have ht : t = [] := by
            have : t.length = 0 := by omega
            exact List.length_eq_zero.1 this
          subst ht
          exact ⟨Or.inl ⟨by simp [deleteConn_single], rfl⟩, by simp; omega⟩
        · refine ⟨Or.inr ⟨{ conn with refCount := (t.length : Int), lastUsed := now1 }, cl,
            by simp [storeConn, deleteConn_single, hcl], hcl, rfl, ?_⟩, by omega⟩
          intro b hb
          exact hall b (List.mem_cons_of_mem _ hb)
  | sweep now =>
    rcases hinv with ⟨hc, hh⟩ | ⟨conn, cl, hc, hcl, hrc, hall⟩
    · simp only at hc hh
      subst hc hh
      exact ⟨Or.inl ⟨rfl, rfl⟩, by simp [trackStep]; omega⟩
    · simp only at hc hrc hall
      subst hc
      simp only [trackStep, cleanupIdleConnections, List.foldl_cons, List.foldl_nil, cleanupStep]
      by_cases hx : idleExpired maxIdle now conn = true
      · simp only [hx, if_true, deleteConn_single]
        have hz : conn.refCount ≤ 0 := by
          simp only [idleExpired, Bool.and_eq_true, decide_eq_true_eq] at hx
          exact hx.1
        have ht : held = [] := by
          have : held.length = 0 := by omega
          exact List.length_eq_zero.1 this
        subst ht
        exact ⟨Or.inl ⟨rfl, rfl⟩, by simp; omega⟩
      · simp only [hx]
        exact ⟨Or.inr ⟨conn, cl, rfl, hcl, hrc, hall⟩, by omega⟩

theorem trackedInv_counts (key : String) (s : Tracked) (h : trackedInv key s) :
    refCountOf s.pool key = s.held.length ∧ sameTransport s.held := by
  rcases h with ⟨hc, hh⟩ | ⟨conn, cl, hc, _, hrc, hall⟩
  · simp [refCountOf, hc, hh, lookupConn, sameTransport]
  · refine ⟨by simp [refCountOf, hc, lookupConn_single, hrc], ?_⟩
    intro a ha b hb
    rw [hall a ha, hall b hb]

theorem trackRun_inv (host : String) (port : Int) (user : String) :
    ∀ (steps : List IdentityStep) (s : Tracked) (k : Int),
      (s.held.length : Int) ≤ k → k + steps.length < 9223372036854775808 →
      trackedInv (connectionKey host port user) s →
      releasesMatched host port user s steps = true →
      probesSucceed host port user s steps = true →
      ∀ n, trackedInv (connectionKey host port user)
        (trackRun host port user s (steps.take n)) := by
  intro steps
  induction steps with
  | nil =>
    intro s k _ _ hinv _ _ n
    simpa [trackRun] using hinv
  | cons st rest ih =>
    intro s k hk hlen hinv hm hp n
    cases n with
    | zero => simpa [trackRun] using hinv
    | succ n =>
      simp only [releasesMatched, Bool.and_eq_true] at hm
      simp only [probesSucceed, Bool.and_eq_true, Bool.not_eq_true'] at hp
      simp only [List.length_cons, Nat.cast_add, Nat.cast_one] at hlen
      have hstep := trackStep_inv host port user s st k hk (by omega) hinv hm.1 hp.1
      have := ih (trackStep host port user s st) (k + 1) hstep.2 (by omega) hstep.1 hm.2 hp.2 n
      simpa [trackRun, List.take_succ_cons] using this

/-- C2, as stated, fails: after an acquire of `("h", 22, "u")` and a second acquire whose
liveness probe fails, no release having been made, two acquisitions are outstanding, the
`refCount` of the entry is 1, and the second acquire returned transport 2 while transport 1
is still outstanding. -/
theorem failed_probe_breaks_count :
    releasesMatched "h" 22 "u" { pool := newPool, held := [] } failedProbeSteps = true
    ∧ (trackRun "h" 22 "u" { pool := newPool, held := [] } failedProbeSteps).held = [2, 1]
    ∧ refCountOf (trackRun "h" 22 "u" { pool := newPool, held := [] } failedProbeSteps).pool
        (connectionKey "h" 22 "u") = 1 := by
  decide

/-- C2, amended. For every sequence of acquire, release and sweep steps on one identity
starting from an empty pool, short of the range of the counter, in which every release
follows a matching successful acquire not yet released and no acquire makes a liveness probe
that fails: after every step the `refCount` of the entry (0 when there is none) is the number
of successful acquires not yet released, and the transports of the outstanding acquisitions,
the one just returned included, are all the same. -/
theorem refCount_counts_outstanding (host : String) (port : Int) (user : String)
    (p : connectionPool) (steps : List IdentityStep) (hp : p.connections = [])
    (hlen : (steps.length : Int) < 9223372036854775808)
    (hm : releasesMatched host port user { pool := p, held := [] } steps = true)
    (hprobe : probesSucceed host port user { pool := p, held := [] } steps = true) :
    ∀ n,
      refCountOf (trackRun host port user { pool := p, held := [] } (steps.take n)).pool
          (connectionKey host port user)
        = ((trackRun host port user { pool := p, held := [] } (steps.take n)).held.length : Int)
      ∧ sameTransport (trackRun host port user { pool := p, held := [] } (steps.take n)).held :=
  fun n => trackedInv_counts _ _
    (trackRun_inv host port user steps { pool := p, held := [] } 0 (by simp) (by omega)
      (Or.inl ⟨hp, rfl⟩) hm hprobe n)

/-- C2, at concrete inputs: two acquires of `("h", 22, "u")` on the new pool, then a release,
a sweep and a release; after the second step two acquisitions are outstanding, both of
transport 1, and the `refCount` is 2. -/
theorem refCount_counts_outstanding_witness :
    newPool.connections = [] ∧ (sharedSteps.length : Int) < 9223372036854775808
    ∧ releasesMatched "h" 22 "u" { pool := newPool, held := [] } sharedSteps = true
    ∧ probesSucceed "h" 22 "u" { pool := newPool, held := [] } sharedSteps = true
    ∧ (trackRun "h" 22 "u" { pool := newPool, held := [] } (sharedSteps.take 2)).held = [1, 1]
    ∧ refCountOf (trackRun "h" 22 "u" { pool := newPool, held := [] } (sharedSteps.take 2)).pool
        (connectionKey "h" 22 "u")
      = ((trackRun "h" 22 "u" { pool := newPool, held := [] }
          (sharedSteps.take 2)).held.length : Int) :=
  ⟨rfl, by decide, by decide, by decide, by decide,
    (refCount_counts_outstanding "h" 22 "u" newPool sharedSteps rfl (by decide) (by decide)
      (by decide) 2).1⟩

end PNANA
